import Mathlib

set_option maxRecDepth 40000

/-!
Verification of the English-to-SQL translation core of `app.py`
(English-to-SQL Translator, Restaurant / Cafe Edition).

The pure translation pipeline of `app.py` is embedded below: tokenisation
(with its fallback), the keyword extractors, the time-expression parser
(the regular expressions of the source are modelled as explicit scanners
with Python `re` leftmost-match and backtracking semantics), the dialect
adapter and the query-plan builder / SQL renderer.  The `db_type` global of
the source is passed explicitly as a `DbType` argument; the nested closures
`with_calendar_fill_time_only` and `dim_block` are lifted to top-level
functions taking their captured variables as arguments.  Python string
quotes inside SQL fragments are written `\x27`.
-/

/-- The single-quote character (written numerically for readability of SQL fragments). -/
def sqc : Char := Char.ofNat 39

/-- Python whitespace set used by `str.split()` / `str.strip()` and regex `\s` (ASCII part). -/
def pySpace (c : Char) : Bool :=
  c = ' ' || c = '\t' || c = '\n' || c = '\r' || c = Char.ofNat 11 || c = Char.ofNat 12

/-- Python regex word character `\w` (ASCII part), for `\b` boundaries. -/
def isWordChar (c : Char) : Bool := c.isAlphanum || c = '_'

/-- Python `str.lower()` (ASCII letters, as in the questions the system handles). -/
def pyLower (s : String) : String := ⟨s.data.map Char.toLower⟩

/-- Numeric value of a decimal digit character. -/
def digitVal (c : Char) : Nat := c.toNat - 48

/-- The decimal digit character for `n % 10`. -/
def digitChar (n : Nat) : Char := Char.ofNat (48 + n % 10)

/-- Helper for `natDigits`, structurally recursive on a fuel bound. -/
def natDigitsAux : Nat → Nat → List Char
  | 0, _ => []
  | fuel + 1, n => if n < 10 then [digitChar n] else natDigitsAux fuel (n / 10) ++ [digitChar n]

/-- Decimal digits of `n`, most significant first (Python `str(n)` for naturals);
`n + 1` always bounds the number of digits. -/
def natDigits (n : Nat) : List Char := natDigitsAux (n + 1) n

/-- Python `str(n)` for a natural number. -/
def natStr (n : Nat) : String := ⟨natDigits n⟩

/-- Python format `f"{n:0wd}"`: zero-pad the decimal digits of `n` to width `w`. -/
def padZeros (w n : Nat) : String :=
  ⟨List.replicate (w - (natDigits n).length) '0' ++ natDigits n⟩

/-- Leap-year test, as used by Python `calendar.monthrange`. -/
def isLeap (y : Nat) : Bool := y % 4 = 0 && (y % 100 ≠ 0 || y % 400 = 0)

/-- Last day of month `m` of year `y` (Python `calendar.monthrange(y, m)[1]`). -/
def monthLastDay (y m : Nat) : Nat :=
  if m = 2 then (if isLeap y then 29 else 28)
  else if m = 4 || m = 6 || m = 9 || m = 11 then 30
  else 31

/-- A bound SQL parameter: the source binds Python ints (plain year) and strings (dates). -/
inductive Param where
  | pint (n : Int)
  | pstr (s : String)
deriving DecidableEq, Repr

/-- The `db_type` global of the source: "SQLite" or "PostgreSQL". -/
inductive DbType where
  | sqlite
  | postgres
deriving DecidableEq, Repr

/-- Does `pat` occur as a prefix of `s`? (regex literal matching). -/
def isPrefixList : List Char → List Char → Bool
  | [], _ => true
  | _ :: _, [] => false
  | c :: cs, d :: ds => c = d && isPrefixList cs ds

/-- Drop a literal prefix from a character list, failing if it does not match. -/
def dropLit : List Char → List Char → Option (List Char)
  | [], s => some s
  | _ :: _, [] => none
  | c :: cs, d :: ds => if c = d then dropLit cs ds else none

/-- Substring containment on character lists. -/
def listContainsSub (pat : List Char) : List Char → Bool
  | [] => isPrefixList pat []
  | c :: rest => isPrefixList pat (c :: rest) || listContainsSub pat rest

/-- Python `pat in s` substring containment. -/
def strContains (s pat : String) : Bool := listContainsSub pat.data s.data

/-- The characters after the first occurrence of `pat` (Python `s.split(pat, 1)[1]`). -/
def tailAfterFirst (pat : List Char) : List Char → Option (List Char)
  | [] => if pat.isEmpty then some [] else none
  | c :: rest =>
    if isPrefixList pat (c :: rest) then some ((c :: rest).drop pat.length)
    else tailAfterFirst pat rest

/-- Python `str.strip()`. -/
def pyStrip (s : String) : String :=
  ⟨((s.data.dropWhile pySpace).reverse.dropWhile pySpace).reverse⟩

/-- Python `sep.join(parts)`. -/
def pyJoin (sep : String) : List String → String
  | [] => ""
  | [x] => x
  | x :: y :: xs => x ++ sep ++ pyJoin sep (y :: xs)

/-- Helper for `pySplit`: current partially read word is `acc` (reversed). -/
def pySplitAux : List Char → List Char → List String
  | [], acc => if acc.isEmpty then [] else [⟨acc.reverse⟩]
  | c :: rest, acc =>
    if pySpace c then
      if acc.isEmpty then pySplitAux rest [] else (⟨acc.reverse⟩ : String) :: pySplitAux rest []
    else pySplitAux rest (c :: acc)

/-- Python `str.split()` with no arguments: split on whitespace runs, dropping empties. -/
def pySplit (s : String) : List String := pySplitAux s.data []

/-- Python `str.replace("WHERE", "")`, specialised to the one pattern the source uses:
remove every non-overlapping occurrence of `WHERE`, left to right. -/
def replaceWHERE : List Char → List Char
  | 'W' :: 'H' :: 'E' :: 'R' :: 'E' :: rest => replaceWHERE rest
  | c :: rest => c :: replaceWHERE rest
  | [] => []

/-! Regex scanners.  Each Python regular expression of the source is modelled as a
scanner that tries an anchored match at every position, left to right (Python
`re.search` leftmost-match semantics), threading whether the previous character
was a word character for `\b`. -/

/-- Match `20\d{2}` at the head, returning the year and the rest. -/
def matchYearAt : List Char → Option (Nat × List Char)
  | '2' :: '0' :: c :: d :: rest =>
    if c.isDigit && d.isDigit then some (2000 + 10 * digitVal c + digitVal d, rest) else none
  | _ => none

/-- Is there a `\b` word boundary before the continuation (next char not a word char)? -/
def boundaryAfter : List Char → Bool
  | [] => true
  | c :: _ => !isWordChar c

/-- Regex `\s+`: at least one whitespace character, consumed greedily. -/
def spaces1 : List Char → Option (List Char)
  | c :: rest => if pySpace c then some (rest.dropWhile pySpace) else none
  | [] => none

/-- Generic leftmost search where the match start must sit at a `\b` boundary;
`prevW` records whether the previous character was a word character. -/
def searchWB {A : Type} (tryAt : List Char → Option A) : List Char → Bool → Option A
  | [], _ => none
  | c :: rest, prevW =>
    match (if prevW then (none : Option A) else tryAt (c :: rest)) with
    | some r => some r
    | none => searchWB tryAt rest (isWordChar c)

/-- Generic leftmost search with no boundary requirement at the match start. -/
def searchAnywhere {A : Type} (tryAt : List Char → Option A) : List Char → Option A
  | [] => tryAt []
  | c :: rest =>
    match tryAt (c :: rest) with
    | some r => some r
    | none => searchAnywhere tryAt rest

/-- The `MONTHS` table of the source, in its Python dict insertion order (the order
of alternatives in `MONTH_YEAR_RE`). -/
def MONTHS : List (String × Nat) :=
  [("january", 1), ("jan", 1), ("february", 2), ("feb", 2), ("march", 3), ("mar", 3),
   ("april", 4), ("apr", 4), ("may", 5), ("june", 6), ("jun", 6), ("july", 7), ("jul", 7),
   ("august", 8), ("aug", 8), ("september", 9), ("sep", 9), ("sept", 9),
   ("october", 10), ("oct", 10), ("november", 11), ("nov", 11), ("december", 12), ("dec", 12)]

/-- Anchored match of `MONTH_YEAR_RE` = `\b(january|jan|...)\s+(20\d{2})\b`,
returning (month number, year); month alternatives tried in table order. -/
def tryMonthYearAt (s : List Char) : Option (Nat × Nat) :=
  MONTHS.findSome? fun mp => do
    let r1 ← dropLit mp.1.data s
    let r2 ← spaces1 r1
    let (yr, r3) ← matchYearAt r2
    if boundaryAfter r3 then pure (mp.2, yr) else none

/-- A quarter digit `[1-4]`. -/
def quarterDigit (c : Char) : Option Nat :=
  if c = '1' then some 1 else if c = '2' then some 2
  else if c = '3' then some 3 else if c = '4' then some 4 else none

/-- Anchored match of `\b(20\d{2})\s*q([1-4])\b`, returning (year, quarter). -/
def tryYQAt (s : List Char) : Option (Nat × Nat) :=
  match matchYearAt s with
  | some (yr, r1) =>
    match r1.dropWhile pySpace with
    | 'q' :: c :: r3 =>
      match quarterDigit c with
      | some q => if boundaryAfter r3 then some (yr, q) else none
      | none => none
    | _ => none
  | none => none

/-- Anchored match of `\bq([1-4])\s*(20\d{2})\b`, returning (quarter, year). -/
def tryQYAt (s : List Char) : Option (Nat × Nat) :=
  match s with
  | 'q' :: c :: r1 =>
    match quarterDigit c with
    | some q =>
      match matchYearAt (r1.dropWhile pySpace) with
      | some (yr, r2) => if boundaryAfter r2 then some (q, yr) else none
      | none => none
    | none => none
  | _ => none

/-- Match `(20\d{2})\b` at the head. -/
def yearWithBoundary (r : List Char) : Option Nat :=
  match matchYearAt r with
  | some (yr, rest) => if boundaryAfter rest then some yr else none
  | none => none

/-- The ordinal words of the ordinal-quarter regex. -/
def ORDWORDS : List (String × Nat) :=
  [("first", 1), ("second", 2), ("third", 3), ("fourth", 4)]

/-- The `(?:\s+of|\s+in)?\s+(20\d{2})\b` tail of the ordinal-quarter regex, with
Python backtracking through the optional group. -/
def afterQuarterYear (r : List Char) : Option Nat :=
  (do
    let r1 ← spaces1 r
    let r2 ← dropLit "of".data r1
    let r3 ← spaces1 r2
    yearWithBoundary r3) <|>
  (do
    let r1 ← spaces1 r
    let r2 ← dropLit "in".data r1
    let r3 ← spaces1 r2
    yearWithBoundary r3) <|>
  (do
    let r1 ← spaces1 r
    yearWithBoundary r1)

/-- Anchored match of `\b(first|second|third|fourth)\s+quarter(?:\s+of|\s+in)?\s+(20\d{2})\b`. -/
def tryOrdAt (s : List Char) : Option (Nat × Nat) :=
  ORDWORDS.findSome? fun w => do
    let r1 ← dropLit w.1.data s
    let r2 ← spaces1 r1
    let r3 ← dropLit "quarter".data r2
    let yr ← afterQuarterYear r3
    pure (w.2, yr)

/-- Anchored match of `YEAR_RE` = `\b(20\d{2})\b`. -/
def tryYearAt (s : List Char) : Option Nat := yearWithBoundary s

/-- Anchored match of `\bq[1-4]\b` (quarter-vocabulary token). -/
def tryQTokAt (s : List Char) : Option Unit :=
  match s with
  | 'q' :: c :: r1 =>
    match quarterDigit c with
    | some _ => if boundaryAfter r1 then some () else none
    | none => none
  | _ => none

/-- Match `\d{4}-\d{2}-\d{2}` at the head, returning the matched text and the rest. -/
def matchDateAt : List Char → Option (String × List Char)
  | a :: b :: c :: d :: '-' :: e :: f :: '-' :: g :: h :: rest =>
    if a.isDigit && b.isDigit && c.isDigit && d.isDigit &&
       e.isDigit && f.isDigit && g.isDigit && h.isDigit
    then some (⟨[a, b, c, d, '-', e, f, '-', g, h]⟩, rest) else none
  | _ => none

/-- Anchored match of `date\s+between\s+(\d{4}-\d{2}-\d{2})\s+and\s+(\d{4}-\d{2}-\d{2})`
(no `\b` anchors in the source pattern). -/
def tryDateBetweenAt (s : List Char) : Option (String × String) := do
  let r1 ← dropLit "date".data s
  let r2 ← spaces1 r1
  let r3 ← dropLit "between".data r2
  let r4 ← spaces1 r3
  let (d1, r5) ← matchDateAt r4
  let r6 ← spaces1 r5
  let r7 ← dropLit "and".data r6
  let r8 ← spaces1 r7
  let (d2, _) ← matchDateAt r8
  pure (d1, d2)

/-- Anchored match of `\border(s)?\s+count\b`. -/
def tryOrdersCountAt (s : List Char) : Option Unit := do
  let r1 ← dropLit "order".data s
  let r2 := match r1 with | 's' :: t => t | _ => r1
  let r3 ← spaces1 r2
  let r4 ← dropLit "count".data r3
  if boundaryAfter r4 then pure () else none

/-- Anchored match of a literal phrase with a trailing `\b`. -/
def tryPhraseAt (phrase : String) (s : List Char) : Option Unit := do
  let r ← dropLit phrase.data s
  if boundaryAfter r then pure () else none

/-! The translation helpers of the source. -/

/-- `AGG_KEYWORDS` of the source (lookup is by key; order irrelevant). -/
def AGG_KEYWORDS : List (String × String) :=
  [("total", "SUM"), ("sum", "SUM"), ("sales", "SUM"), ("revenue", "SUM"),
   ("average", "AVG"), ("avg", "AVG"), ("count", "COUNT"), ("number", "COUNT"),
   ("maximum", "MAX"), ("max", "MAX"), ("minimum", "MIN"), ("min", "MIN")]

/-- `AGG_KEYWORDS[t]` when `t in AGG_KEYWORDS`. -/
def aggLookup (t : String) : Option String :=
  (AGG_KEYWORDS.find? fun kv => kv.1 = t).map Prod.snd

/-- `wants_distinct` of the source: any token in `DISTINCT_WORDS` = {distinct, unique}. -/
def wants_distinct (tokens : List String) : Bool :=
  tokens.any fun w => w = "distinct" || w = "unique"

/-- `tokens_contain` of the source. -/
def tokens_contain (tokens : List String) (words : List String) : Bool :=
  words.any fun w => tokens.contains w

/-- `extract_top_n`: `TOP_N_RE` = `\b(top|best)\s+(\d+)\b` over `" ".join(tokens)`. -/
def digitsToNat (ds : List Char) : Nat := ds.foldl (fun a c => a * 10 + digitVal c) 0

/-- Anchored match of `\b(top|best)\s+(\d+)\b`. -/
def tryTopNAt (s : List Char) : Option Nat := do
  let r1 ← (dropLit "top".data s) <|> (dropLit "best".data s)
  let r2 ← spaces1 r1
  let ds := r2.takeWhile Char.isDigit
  let rest := r2.dropWhile Char.isDigit
  if ds.isEmpty then none
  else if boundaryAfter rest then pure (digitsToNat ds) else none

/-- `extract_top_n` of the source. -/
def extract_top_n (tokens : List String) : Option Nat :=
  searchWB tryTopNAt (pyJoin " " tokens).data false

/-- `extract_time_bucket` of the source. -/
def extract_time_bucket (tokens : List String) (text : String) : Option String :=
  let t := pyLower text
  if strContains t "quarterly" || strContains t "by quarter" || strContains t "qtr"
     || (searchWB tryQTokAt t.data false).isSome || tokens.contains "quarter" then some "quarter"
  else if strContains t "by month" || strContains t "monthly" || strContains t "per month"
     || strContains t "each month" || strContains t "months" || tokens.contains "month" then
    some "month"
  else if strContains t "yearly" || strContains t "per year" || strContains t "by year"
     || strContains t "years" || tokens.contains "year" || tokens.contains "yearly" then
    some "year"
  else if tokens.contains "day" then some "day"
  else none

/-- `sql_placeholders` of the source. -/
def sql_placeholders (db : DbType) : String :=
  match db with
  | .postgres => "%s"
  | .sqlite => "?"

/-- `base_joins` of the source. -/
def base_joins : String :=
  "FROM order_items\nJOIN orders   ON order_items.order_id = orders.order_id\nLEFT JOIN products  ON order_items.product_id = products.product_id\nLEFT JOIN customers ON orders.customer_id = customers.customer_id\n"

/-- `_year_condition` of the source. -/
def year_condition (db : DbType) : String :=
  match db with
  | .sqlite => "CAST(strftime(\x27%Y\x27, orders.order_date) AS INTEGER) = " ++ sql_placeholders .sqlite
  | .postgres => "EXTRACT(YEAR FROM orders.order_date)::INT = " ++ sql_placeholders .postgres

/-- `_between_condition` of the source. -/
def between_condition (db : DbType) : String :=
  "orders.order_date BETWEEN " ++ sql_placeholders db ++ " AND " ++ sql_placeholders db

/-- The repeated `CASE ... END` quarter expression of the SQLite dialect. -/
def q_case_sqlite : String :=
  "CASE WHEN CAST(strftime(\x27%m\x27, orders.order_date) AS INTEGER) BETWEEN 1 AND 3 THEN 1 WHEN CAST(strftime(\x27%m\x27, orders.order_date) AS INTEGER) BETWEEN 4 AND 6 THEN 2 WHEN CAST(strftime(\x27%m\x27, orders.order_date) AS INTEGER) BETWEEN 7 AND 9 THEN 3 ELSE 4 END"

/-- The SQLite `year` integer expression of the quarter dialect entry. -/
def year_int_sqlite : String := "CAST(strftime(\x27%Y\x27, orders.order_date) AS INTEGER)"

/-- `period_expressions` of the source: (label, group, order-key, alia) for a bucket.
The source returns four parallel `None`s or four set values; this is modelled as an
`Option` of the quadruple. -/
def period_expressions (db : DbType) (bucket : Option String) :
    Option (String × String × String × String) :=
  match bucket with
  | none => none
  | some b =>
    match db with
    | .sqlite =>
      if b = "day" then
        let label := "strftime(\x27%Y-%m-%d\x27, orders.order_date)"
        some (label, label, label, "period")
      else if b = "month" then
        let label := "strftime(\x27%Y-%m\x27, orders.order_date)"
        some (label, label, label, "period")
      else if b = "year" then
        let label := "strftime(\x27%Y\x27, orders.order_date)"
        some (label, label, label, "period")
      else if b = "quarter" then
        let label := "strftime(\x27%Y\x27, orders.order_date) || \x27-Q\x27 || " ++ q_case_sqlite
        let grp := year_int_sqlite ++ ", " ++ q_case_sqlite
        let ordk := "(" ++ year_int_sqlite ++ "*10 + " ++ q_case_sqlite ++ ")"
        some (label, grp, ordk, "period")
      else none
    | .postgres =>
      if b = "day" then
        let label := "to_char(orders.order_date::date, \x27YYYY-MM-DD\x27)"
        let grp := "date_trunc(\x27day\x27, orders.order_date::timestamp)"
        some (label, grp, grp, "period")
      else if b = "month" then
        let label := "to_char(orders.order_date::date, \x27YYYY-MM\x27)"
        let grp := "date_trunc(\x27month\x27, orders.order_date::timestamp)"
        some (label, grp, grp, "period")
      else if b = "year" then
        let label := "to_char(orders.order_date::date, \x27YYYY\x27)"
        let grp := "date_trunc(\x27year\x27, orders.order_date::timestamp)"
        some (label, grp, grp, "period")
      else if b = "quarter" then
        let label := "to_char(orders.order_date::date, \x27YYYY-\"Q\"Q\x27)"
        let grp := "date_trunc(\x27quarter\x27, orders.order_date::timestamp)"
        some (label, grp, grp, "period")
      else none

/-- Python `f"{yr:04d}-{mon:02d}-{day:02d}"` date rendering of `extract_period_filters`. -/
def dateStr (yr mon day : Nat) : String :=
  padZeros 4 yr ++ "-" ++ padZeros 2 mon ++ "-" ++ padZeros 2 day

/-- The quarter-year recognition of `extract_period_filters`: the first of the two
`qmatch` regexes that hits anywhere, else the ordinal-word form; result (quarter, year). -/
def qySearch (t : List Char) : Option (Nat × Nat) :=
  match searchWB tryYQAt t false with
  | some (yr, q) => some (q, yr)
  | none =>
    match searchWB tryQYAt t false with
    | some (q, yr) => some (q, yr)
    | none => searchWB tryOrdAt t false

/-- The body of `extract_period_filters` with the three pure regex searches
abstracted as arguments (`my` month-year, `qy` quarter-year, `yv` plain year). -/
def epfCore (db : DbType) (my qy : Option (Nat × Nat)) (yv : Option Nat) :
    List String × List Param × Option String × Option Nat :=
  -- Month + Year (e.g., "January 2025")
  let (w1, p1, ib1, sy1) :=
    match my with
    | some (mon, yr) =>
      ([between_condition db],
       [Param.pstr (dateStr yr mon 1), Param.pstr (dateStr yr mon (monthLastDay yr mon))],
       (some "day" : Option String), (some yr : Option Nat))
    | none => ([], [], none, none)
  -- Quarter + Year
  let (w2, p2, ib2, sy2) :=
    match qy with
    | some (q, yr) =>
      if q ≠ 0 && yr ≠ 0 then
        let start_mon := 1 + (q - 1) * 3
        let end_mon := start_mon + 2
        (w1 ++ [between_condition db],
         p1 ++ [Param.pstr (dateStr yr start_mon 1),
                Param.pstr (dateStr yr end_mon (monthLastDay yr end_mon))],
         ib1 <|> some "month", (some yr : Option Nat))
      else (w1, p1, ib1, sy1)
    | none => (w1, p1, ib1, sy1)
  -- Plain year, only when no BETWEEN fragment was produced above
  if !(w2.any fun p => strContains p "BETWEEN") then
    match yv with
    | some yr =>
      (w2 ++ [year_condition db], p2 ++ [Param.pint (Int.ofNat yr)], ib2 <|> some "month", some yr)
    | none => (w2, p2, ib2, sy2)
  else (w2, p2, ib2, sy2)

/-- `extract_period_filters` of the source: returns
(where parts, params, inferred bucket, single year). -/
def extract_period_filters (db : DbType) (text : String) :
    List String × List Param × Option String × Option Nat :=
  let t := (pyLower text).data
  epfCore db (searchWB tryMonthYearAt t false) (qySearch t) (searchWB tryYearAt t false)

/-- `detect_orders_count` of the source. -/
def detect_orders_count (text : String) : Bool :=
  let t := (pyLower text).data
  (searchWB tryOrdersCountAt t false).isSome
  || (searchWB (tryPhraseAt "count of orders") t false).isSome
  || (searchWB (tryPhraseAt "number of orders") t false).isSome
  || (searchWB (tryPhraseAt "order volume") t false).isSome

/-- The measure selection at the top of `build_join_sql`. -/
def select_measure (question_text : String) (tokens : List String) (agg : String) : String :=
  if detect_orders_count question_text then "COUNT(DISTINCT orders.order_id) AS value"
  else if wants_distinct tokens && tokens_contain tokens ["customer"] then
    "COUNT(DISTINCT customers.customer_id) AS value"
  else agg ++ "(line_total) AS value"

/-- The `", ".join(...)` calendar rows for the SQLite quarter calendar fill. -/
def cal_rows_quarter (y : Nat) : String :=
  pyJoin ", " ((List.range 4).map fun i =>
    "(\x27" ++ natStr y ++ "-Q" ++ natStr (i + 1) ++ "\x27, " ++ natStr (i + 1) ++ ")")

/-- The `", ".join(...)` calendar rows for the SQLite month calendar fill. -/
def cal_rows_month (y : Nat) : String :=
  pyJoin ", " ((List.range 12).map fun i =>
    "(\x27" ++ natStr y ++ "-" ++ padZeros 2 (i + 1) ++ "\x27, " ++ natStr (i + 1) ++ ")")

/-- The shared body of all six calendar-fill templates (the stripped f-string),
given the `WITH cal ...` head without its trailing comma. -/
def calFillBody (calHead lbl sm joins final_where grp : String) : String :=
  calHead ++ ",\nagg AS (\n  SELECT " ++ lbl ++ " AS period, " ++ sm ++ "\n  " ++ joins
    ++ final_where ++ "\n  GROUP BY " ++ grp
    ++ "\n)\nSELECT cal.period, COALESCE(agg.value, 0) AS value\nFROM cal\nLEFT JOIN agg ON agg.period = cal.period\nORDER BY cal.ord;"

/-- `with_calendar_fill_time_only` of the source (a closure there; its captured
variables are arguments here).  Returns the SQL text, or `none` for a bucket
with no calendar-fill template. -/
def with_calendar_fill_time_only (db : DbType) (bucket : Option String) (single_year : Nat)
    (lbl sm final_where grp : String) : Option String :=
  let joins := base_joins
  match db, bucket with
  | .sqlite, some "quarter" =>
    some (calFillBody ("WITH cal(period, ord) AS (VALUES " ++ cal_rows_quarter single_year ++ ")")
      lbl sm joins final_where grp)
  | .sqlite, some "month" =>
    some (calFillBody ("WITH cal(period, ord) AS (VALUES " ++ cal_rows_month single_year ++ ")")
      lbl sm joins final_where grp)
  | .sqlite, some "year" =>
    some (calFillBody ("WITH cal(period, ord) AS (VALUES (\x27" ++ natStr single_year ++ "\x27, 1))")
      lbl sm joins final_where grp)
  | .postgres, some "quarter" =>
    some (calFillBody ("WITH cal AS (\n  SELECT q AS ord, to_char(make_date(" ++ natStr single_year
      ++ ", 1 + (q-1)*3, 1), \x27YYYY-\"Q\"Q\x27) AS period\n  FROM generate_series(1,4) AS q\n)")
      lbl sm joins final_where grp)
  | .postgres, some "month" =>
    some (calFillBody ("WITH cal AS (\n  SELECT to_char(d, \x27YYYY-MM\x27) AS period, EXTRACT(MONTH FROM d)::int AS ord\n  FROM generate_series(date \x27"
      ++ natStr single_year ++ "-01-01\x27, date \x27" ++ natStr single_year
      ++ "-12-01\x27, interval \x271 month\x27) AS d\n)")
      lbl sm joins final_where grp)
  | .postgres, some "year" =>
    some (calFillBody ("WITH cal(period, ord) AS (VALUES (\x27" ++ natStr single_year ++ "\x27, 1))")
      lbl sm joins final_where grp)
  | _, _ => none

/-- `dim_block` of the source (a closure there; its captured variables are arguments). -/
def dim_block (dim group_cols : String) (include_period : Bool)
    (pe : Option (String × String × String × String))
    (sm final_where limit_clause : String)
    (period_params dparams : List Param) : String × List Param :=
  let joins := base_joins
  let all_params := period_params ++ dparams
  match pe, include_period with
  | some (lbl, grp, ordk, alia), true =>
    let sql := "SELECT " ++ dim ++ ", " ++ lbl ++ " AS " ++ alia ++ ", " ++ sm ++ "\n" ++ joins
      ++ final_where
      ++ "GROUP BY " ++ group_cols ++ ", " ++ grp ++ "\n"
      ++ (if ordk ≠ "" then "ORDER BY " ++ group_cols ++ ", " ++ ordk ++ "\n"
          else "ORDER BY 3 DESC\n")
      ++ limit_clause ++ ";"
    (sql, all_params)
  | _, _ =>
    let sql := "SELECT " ++ dim ++ ", " ++ sm ++ "\n" ++ joins ++ final_where
      ++ "GROUP BY " ++ group_cols ++ "\nORDER BY 2 DESC" ++ limit_clause ++ ";"
    (sql, all_params)

/-- `build_join_sql` of the source. -/
def build_join_sql (db : DbType) (question_text : String) (tokens : List String)
    (agg : String) (where_clause : String) : String × List Param :=
  let sm := select_measure question_text tokens agg
  let bucket0 := extract_time_bucket tokens question_text
  let epf := extract_period_filters db question_text
  let period_parts := epf.1
  let period_params := epf.2.1
  let inferred_bucket := epf.2.2.1
  let single_year := epf.2.2.2
  let bucket := if bucket0.isNone && inferred_bucket.isSome then inferred_bucket else bucket0
  let pe := period_expressions db bucket
  let dbm := searchAnywhere tryDateBetweenAt (pyLower question_text).data
  let dparams : List Param :=
    match dbm with
    | some (d1, d2) => [Param.pstr d1, Param.pstr d2]
    | none => []
  let extra_between : Option String :=
    match dbm with
    | some _ => some (between_condition db)
    | none => none
  let parts :=
    (if where_clause ≠ "" then [pyStrip ⟨replaceWHERE where_clause.data⟩] else [])
    ++ period_parts
    ++ (match extra_between with | some b => [b] | none => [])
  let final_where := if parts ≠ [] then "WHERE " ++ pyJoin " AND " parts ++ "\n" else ""
  let top_n := extract_top_n tokens
  let limit_clause :=
    match top_n with
    | some n => if n ≠ 0 then "\nLIMIT " ++ natStr n else ""
    | none => ""
  if tokens_contain tokens ["customer", "customers"] then
    dim_block "customers.customer_name AS dimension" "customers.customer_name" pe.isSome pe
      sm final_where limit_clause period_params dparams
  else if tokens_contain tokens ["product", "products"] then
    dim_block "products.product_name AS dimension" "products.product_name" pe.isSome pe
      sm final_where limit_clause period_params dparams
  else if tokens_contain tokens ["category", "categories"] then
    dim_block "products.category AS dimension" "products.category" pe.isSome pe
      sm final_where limit_clause period_params dparams
  else
    match pe with
    | some (lbl, grp, ordk, alia) =>
      let calTry : Option String :=
        match single_year with
        | some y =>
          if y ≠ 0 && (bucket = some "month" || bucket = some "quarter" || bucket = some "year")
          then with_calendar_fill_time_only db bucket y lbl sm final_where grp
          else none
        | none => none
      match calTry with
      | some sqlf => (sqlf, period_params ++ dparams)
      | none =>
        let joins := base_joins
        let sql := "SELECT " ++ lbl ++ " AS " ++ alia ++ ", " ++ sm ++ "\n" ++ joins ++ final_where
          ++ "GROUP BY " ++ grp ++ "\n"
          ++ (if ordk ≠ "" then "ORDER BY " ++ ordk ++ "\n" else "ORDER BY 2 DESC\n")
          ++ limit_clause ++ ";"
        (sql, period_params ++ dparams)
    | none =>
      let joins := base_joins
      let sql := "SELECT " ++ sm ++ "\n" ++ joins ++ final_where ++ "LIMIT 1;"
      (sql, period_params ++ dparams)

/-! Tokenisation and the top-level translation entry point. -/

/-- Punctuation peeled off at token edges by the modelled NLTK tokenizer. -/
def isPunctC (c : Char) : Bool :=
  c = '.' || c = ',' || c = '!' || c = '?' || c = ';' || c = ':' || c = '(' || c = ')'

/-- Split leading/trailing punctuation of one whitespace token into separate tokens. -/
def peelPunct (w : String) : List String :=
  let cs := w.data
  let lead := cs.takeWhile isPunctC
  let rest := cs.dropWhile isPunctC
  let revRest := rest.reverse
  let trail := revRest.takeWhile isPunctC
  let core := (revRest.dropWhile isPunctC).reverse
  lead.map (fun c => String.singleton c)
    ++ (if core.isEmpty then [] else [(⟨core⟩ : String)])
    ++ (trail.reverse.map fun c => String.singleton c)

/-- Modelled from the spec: `nltk.word_tokenize`, an external library resource not in
this repository.  On the plain word-and-number questions of the supported grammar it
splits on whitespace, additionally separating leading and trailing punctuation marks
into their own tokens. -/
def word_tokenize (s : String) : List String :=
  (pySplit s).flatMap peelPunct

/-- Modelled from the spec: `nltk.pos_tag`, an external library resource not in this
repository; tags are produced for interface compatibility only and never consumed
downstream.  Number tokens tag as CD, other tokens as a noun tag. -/
def pos_tag (tokens : List String) : List (String × String) :=
  tokens.map fun t => (t, if !t.data.isEmpty && t.data.all Char.isDigit then "CD" else "NN")

/-- `tokenize_and_tag` of the source: NLTK path when the tagging resource is
available, whitespace fallback with every token tagged NN otherwise. -/
def tokenize_and_tag (resourcesOk : Bool) (q : String) : List String × List (String × String) :=
  if resourcesOk then
    let tokens := word_tokenize (pyLower q)
    (tokens, pos_tag tokens)
  else
    let tokens := pySplit (pyLower q)
    (tokens, tokens.map fun t => (t, "NN"))

/-- The `where` tail of the question, when `" where "` occurs in the padded lowered
question (Python `question.lower().split("where", 1)[1].strip()`). -/
def whereTailOf (question : String) : Option String :=
  if strContains (" " ++ pyLower question ++ " ") " where " then
    match tailAfterFirst "where".data (pyLower question).data with
    | some tl => some (pyStrip ⟨tl⟩)
    | none => none
  else none

/-- The captured value of `'?(.*?)'?$` applied to the text after the operator:
the shortest capture such that the remainder is one of the admissible match ends
(empty, a final quote, a final newline, or a quote before a final newline);
fails when the capture would have to contain a newline (`.` does not match one). -/
def valCore (s : List Char) : List Char :=
  match s.reverse with
  | '\n' :: c :: rest => if c = sqc then rest.reverse else (c :: rest).reverse
  | c :: rest => if c = sqc || c = '\n' then rest.reverse else s
  | [] => []

/-- The shortest-capture value of `'?(.*?)'?$` (see `matchWhereTail`). -/
def valOf (s : List Char) : Option String :=
  if (valCore s).contains '\n' then none else some ⟨valCore s⟩

/-- A column character of the where-clause regex class `[a-zA-Z_\.]`. -/
def isColChar (c : Char) : Bool := c.isAlpha || c = '_' || c = '.'

/-- The text after the operator and its `\s*`, with a leading `'` consumed by the
greedy `'?` when present. -/
def opBody (r2 : List Char) : List Char :=
  match r2.dropWhile pySpace with
  | q :: rest => if q = sqc then rest else r2.dropWhile pySpace
  | [] => r2.dropWhile pySpace

/-- `re.match(r"([a-zA-Z_\.]+)\s*(=|>|<)\s*'?(.*?)'?$", tail)` of the source,
returning (column, operator, value). -/
def matchWhereTail (tail : String) : Option (String × String × String) :=
  if (tail.data.takeWhile isColChar).isEmpty then none
  else
    match (tail.data.dropWhile isColChar).dropWhile pySpace with
    | c :: r2 =>
      if c = '=' || c = '>' || c = '<' then
        match valOf (opBody r2) with
        | some val => some (⟨tail.data.takeWhile isColChar⟩, String.singleton c, val)
        | none => none
      else none
    | [] => none

/-- The parsed where clause of a question, if any. -/
def whereParsed (question : String) : Option (String × String × String) :=
  match whereTailOf question with
  | some tl => matchWhereTail tl
  | none => none

/-- The `where_clause` string built by `translate_question_to_sql`. -/
def where_clause_of (question : String) : String :=
  match whereParsed question with
  | some (col, op, val) => "WHERE " ++ col ++ " " ++ op ++ " \x27" ++ val ++ "\x27"
  | none => ""

/-- `translate_question_to_sql` of the source.  The third component is the error
slot of the returned triple: the source returns `None` when `sql` is non-empty and
an error sentinel carrying "Couldn\x27t translate question." otherwise. -/
def translate_question_to_sql (db : DbType) (resourcesOk : Bool) (question : String) :
    String × List Param × Option String :=
  let tokens := (tokenize_and_tag resourcesOk question).1
  let agg := (tokens.findSome? aggLookup).getD "SUM"
  let wc := where_clause_of question
  let (sql, params) := build_join_sql db question tokens agg wc
  (sql, params, if sql = "" then some "Couldn\x27t translate question." else none)

/-! Placeholder counting.  A placeholder token is a `?` (SQLite) or `%s` (PostgreSQL)
occurring in the SQL text outside single-quoted string literals — the SQL lexer view
under which the engine binds parameters. -/

/-- State of the placeholder scanner: whether the position is inside a single-quoted
literal, and (for the two-character `%s` placeholder) whether the previous character
outside a literal was `%`. -/
structure ScanSt where
  inLit : Bool
  pending : Bool
deriving DecidableEq, Repr

/-- The scanner start state. -/
def scanBase : ScanSt := ⟨false, false⟩

/-- One scanner step: the successor state and the number of placeholders completed. -/
def scanStep (db : DbType) (st : ScanSt) (c : Char) : ScanSt × Nat :=
  if c = sqc then (⟨!st.inLit, false⟩, 0)
  else if st.inLit then (st, 0)
  else
    match db with
    | .sqlite => if c = '?' then (⟨false, false⟩, 1) else (⟨false, false⟩, 0)
    | .postgres =>
      if st.pending && c = 's' then (⟨false, false⟩, 1)
      else if c = '%' then (⟨false, true⟩, 0)
      else (⟨false, false⟩, 0)

/-- Run the scanner over a character list, returning the final state and count. -/
def scanChars (db : DbType) : ScanSt → List Char → ScanSt × Nat
  | st, [] => (st, 0)
  | st, c :: rest =>
    ((scanChars db (scanStep db st c).1 rest).1,
     (scanStep db st c).2 + (scanChars db (scanStep db st c).1 rest).2)

/-- The number of placeholder tokens of dialect `db` in `s`, outside string literals. -/
def countPlaceholders (db : DbType) (s : String) : Nat := (scanChars db scanBase s.data).2

/-- A string fragment that scans from the base state back to the base state,
contributing exactly `n` placeholders. -/
def phOK (db : DbType) (p : String) (n : Nat) : Prop :=
  scanChars db scanBase p.data = (scanBase, n)

theorem scanChars_append (db : DbType) (a : List Char) :
    ∀ (st : ScanSt) (b : List Char),
      scanChars db st (a ++ b) =
        ((scanChars db (scanChars db st a).1 b).1,
         (scanChars db st a).2 + (scanChars db (scanChars db st a).1 b).2) := by
  induction a with
  | nil => intro st b; simp [scanChars]
  | cons c rest ih =>
    intro st b
    simp [List.cons_append, scanChars, ih, Nat.add_assoc]

theorem phOK.count {db : DbType} {s : String} {n : Nat} (h : phOK db s n) :
    countPlaceholders db s = n := by
  unfold countPlaceholders
  unfold phOK at h
  rw [h]

theorem phOK.append {db : DbType} {a b : String} {m n : Nat}
    (ha : phOK db a m) (hb : phOK db b n) : phOK db (a ++ b) (m + n) := by
  unfold phOK at *
  simp [String.data_append, scanChars_append, ha, hb]

theorem phOK.cast {db : DbType} {a : String} {m n : Nat}
    (ha : phOK db a m) (h : m = n) : phOK db a n := h ▸ ha

/-- A character that cannot open a literal, be a placeholder, or start one. -/
def neutralChar (c : Char) : Prop := c ≠ sqc ∧ c ≠ '?' ∧ c ≠ '%'

instance (c : Char) : Decidable (neutralChar c) := by
  unfold neutralChar
  infer_instance

theorem scanStep_neutral (db : DbType) (c : Char) (h : neutralChar c) :
    scanStep db scanBase c = (scanBase, 0) := by
  obtain ⟨h1, h2, h3⟩ := h
  unfold scanStep scanBase
  cases db <;> simp [h1, h2, h3]

theorem scanChars_neutral (db : DbType) (s : List Char) (h : ∀ c ∈ s, neutralChar c) :
    scanChars db scanBase s = (scanBase, 0) := by
  induction s with
  | nil => rfl
  | cons c rest ih =>
    have hc := h c (List.mem_cons_self c rest)
    have hr := ih fun d hd => h d (List.mem_cons_of_mem c hd)
    simp [scanChars, scanStep_neutral db c hc, hr]

/-- Inside a literal, quote-free text is skipped with no placeholders counted. -/
theorem scanChars_inLit (db : DbType) (s : List Char) (h : ∀ c ∈ s, c ≠ sqc) :
    scanChars db ⟨true, false⟩ s = (⟨true, false⟩, 0) := by
  induction s with
  | nil => rfl
  | cons c rest ih =>
    have hc := h c (List.mem_cons_self c rest)
    have hr := ih fun d hd => h d (List.mem_cons_of_mem c hd)
    have hstep : scanStep db ⟨true, false⟩ c = (⟨true, false⟩, 0) := by
      unfold scanStep
      simp [hc]
    simp [scanChars, hstep, hr]

/-- A neutral-character string contributes no placeholders. -/
theorem phOK_neutral {db : DbType} {s : String} (h : ∀ c ∈ s.data, neutralChar c) :
    phOK db s 0 := scanChars_neutral db s.data h

/-- A single-quoted literal around quote-free text contributes no placeholders. -/
theorem phOK_quoted {db : DbType} {s : String} (h : ∀ c ∈ s.data, c ≠ sqc) :
    phOK db ("\x27" ++ s ++ "\x27") 0 := by
  unfold phOK
  have h1 : ("\x27" ++ s ++ "\x27").data = sqc :: (s.data ++ [sqc]) := by
    simp [String.data_append]
    rfl
  rw [h1]
  have hstep : scanStep db scanBase sqc = (⟨true, false⟩, 0) := by
    unfold scanStep scanBase
    simp
  have hstep2 : scanStep db ⟨true, false⟩ sqc = (scanBase, 0) := by
    unfold scanStep scanBase
    simp
  simp [scanChars, hstep, scanChars_append, scanChars_inLit db s.data h, hstep2]

/-- Every decimal digit character is neutral. -/
theorem digitChar_neutral (n : Nat) : neutralChar (digitChar n) := by
  unfold digitChar
  have h : n % 10 < 10 := Nat.mod_lt n (by omega)
  generalize n % 10 = k at h
  interval_cases k <;> exact ⟨by decide, by decide, by decide⟩

theorem natDigitsAux_neutral (fuel : Nat) : ∀ (n : Nat), ∀ c ∈ natDigitsAux fuel n, neutralChar c := by
  induction fuel with
  | zero =>
    intro n c hc
    cases hc
  | succ fuel ih =>
    intro n c hc
    unfold natDigitsAux at hc
    split at hc
    · simp only [List.mem_singleton] at hc
      subst hc
      exact digitChar_neutral n
    · rw [List.mem_append] at hc
      rcases hc with hc | hc
      · exact ih (n / 10) c hc
      · simp only [List.mem_singleton] at hc
        subst hc
        exact digitChar_neutral n

theorem natDigits_neutral (n : Nat) : ∀ c ∈ natDigits n, neutralChar c :=
  natDigitsAux_neutral (n + 1) n

theorem natDigits_ne_sqc (n : Nat) : ∀ c ∈ natDigits n, c ≠ sqc :=
  fun c hc => (natDigits_neutral n c hc).1

theorem natStr_phOK (db : DbType) (n : Nat) : phOK db (natStr n) 0 :=
  phOK_neutral (natDigits_neutral n)

theorem padZeros_neutral (w n : Nat) : ∀ c ∈ (padZeros w n).data, neutralChar c := by
  intro c hc
  unfold padZeros at hc
  rw [List.mem_append] at hc
  rcases hc with hc | hc
  · rw [List.eq_of_mem_replicate hc]
    exact ⟨by decide, by decide, by decide⟩
  · exact natDigits_neutral n c hc

theorem padZeros_phOK (db : DbType) (w n : Nat) : phOK db (padZeros w n) 0 :=
  phOK_neutral (padZeros_neutral w n)

theorem phOK_empty (db : DbType) : phOK db "" 0 := rfl

theorem pyJoin_phOK (db : DbType) (sep : String) (hsep : phOK db sep 0) :
    ∀ (parts : List String) (ns : List Nat),
      List.Forall₂ (phOK db) parts ns → phOK db (pyJoin sep parts) ns.sum := by
  intro parts
  induction parts with
  | nil =>
    intro ns h
    cases h
    exact phOK_empty db
  | cons x xs ih =>
    intro ns h
    cases h with
    | cons hx htail =>
      rename_i n ns'
      cases xs with
      | nil =>
        cases htail
        simpa [pyJoin] using hx
      | cons y ys =>
        have hrest := ih _ htail
        have h2 := (hx.append hsep).append hrest
        simpa [pyJoin, List.sum_cons] using h2.cast (by omega)

theorem between_contains_BETWEEN (db : DbType) :
    strContains (between_condition db) "BETWEEN" = true := by
  cases db <;> decide

theorem between_phOK (db : DbType) : phOK db (between_condition db) 2 := by
  cases db <;> rfl

theorem yearcond_phOK (db : DbType) : phOK db (year_condition db) 1 := by
  cases db <;> rfl

/-- The four shapes `extract_period_filters` can return: no filter, one BETWEEN
fragment (month-year or quarter-year), two BETWEEN fragments, or one plain-year
equality fragment; parameters always parallel the fragments. -/
theorem epf_shape (db : DbType) (t : String) :
    (∃ ib sy, extract_period_filters db t = ([], [], ib, sy)) ∨
    (∃ p1 p2 ib sy, extract_period_filters db t =
        ([between_condition db], [Param.pstr p1, Param.pstr p2], ib, sy)) ∨
    (∃ p1 p2 p3 p4 ib sy, extract_period_filters db t =
        ([between_condition db, between_condition db],
         [Param.pstr p1, Param.pstr p2, Param.pstr p3, Param.pstr p4], ib, sy)) ∨
    (∃ yr ib sy, extract_period_filters db t =
        ([year_condition db], [Param.pint yr], ib, sy)) := by
  rcases hmy : searchWB tryMonthYearAt (pyLower t).data false with _ | ⟨mon, yr⟩ <;>
    rcases hqy : qySearch (pyLower t).data with _ | ⟨q, yr2⟩ <;>
    rcases hyv : searchWB tryYearAt (pyLower t).data false with _ | yv
  · have h : extract_period_filters db t = ([], [], none, none) := by
      simp [extract_period_filters, epfCore, hmy, hqy, hyv]
    exact Or.inl ⟨_, _, h⟩
  · have h : extract_period_filters db t =
        ([year_condition db], [Param.pint (Int.ofNat yv)], some "month", some yv) := by
      simp [extract_period_filters, epfCore, hmy, hqy, hyv]
    exact Or.inr (Or.inr (Or.inr ⟨_, _, _, h⟩))
  · by_cases hq : q ≠ 0 ∧ yr2 ≠ 0
    · have h : extract_period_filters db t =
          ([between_condition db],
           [Param.pstr (dateStr yr2 (1 + (q - 1) * 3) 1),
            Param.pstr (dateStr yr2 (1 + (q - 1) * 3 + 2) (monthLastDay yr2 (1 + (q - 1) * 3 + 2)))],
           some "month", some yr2) := by
        simp [extract_period_filters, epfCore, hmy, hqy, hyv, hq.1, hq.2,
          between_contains_BETWEEN]
      exact Or.inr (Or.inl ⟨_, _, _, _, h⟩)
    · have h : extract_period_filters db t = ([], [], none, none) := by
        simp [extract_period_filters, epfCore, hmy, hqy, hyv, hq]
      exact Or.inl ⟨_, _, h⟩
  · by_cases hq : q ≠ 0 ∧ yr2 ≠ 0
    · have h : extract_period_filters db t =
          ([between_condition db],
           [Param.pstr (dateStr yr2 (1 + (q - 1) * 3) 1),
            Param.pstr (dateStr yr2 (1 + (q - 1) * 3 + 2) (monthLastDay yr2 (1 + (q - 1) * 3 + 2)))],
           some "month", some yr2) := by
        simp [extract_period_filters, epfCore, hmy, hqy, hyv, hq.1, hq.2,
          between_contains_BETWEEN]
      exact Or.inr (Or.inl ⟨_, _, _, _, h⟩)
    · have h : extract_period_filters db t =
          ([year_condition db], [Param.pint (Int.ofNat yv)], some "month", some yv) := by
        simp [extract_period_filters, epfCore, hmy, hqy, hyv, hq]
      exact Or.inr (Or.inr (Or.inr ⟨_, _, _, h⟩))
  · have h : extract_period_filters db t =
        ([between_condition db],
         [Param.pstr (dateStr yr mon 1), Param.pstr (dateStr yr mon (monthLastDay yr mon))],
         some "day", some yr) := by
      simp [extract_period_filters, epfCore, hmy, hqy, hyv, between_contains_BETWEEN]
    exact Or.inr (Or.inl ⟨_, _, _, _, h⟩)
  · have h : extract_period_filters db t =
        ([between_condition db],
         [Param.pstr (dateStr yr mon 1), Param.pstr (dateStr yr mon (monthLastDay yr mon))],
         some "day", some yr) := by
      simp [extract_period_filters, epfCore, hmy, hqy, hyv, between_contains_BETWEEN]
    exact Or.inr (Or.inl ⟨_, _, _, _, h⟩)
  · by_cases hq : q ≠ 0 ∧ yr2 ≠ 0
    · have h : extract_period_filters db t =
          ([between_condition db, between_condition db],
           [Param.pstr (dateStr yr mon 1), Param.pstr (dateStr yr mon (monthLastDay yr mon)),
            Param.pstr (dateStr yr2 (1 + (q - 1) * 3) 1),
            Param.pstr (dateStr yr2 (1 + (q - 1) * 3 + 2) (monthLastDay yr2 (1 + (q - 1) * 3 + 2)))],
           some "day", some yr2) := by
        simp [extract_period_filters, epfCore, hmy, hqy, hyv, hq.1, hq.2,
          between_contains_BETWEEN]
      exact Or.inr (Or.inr (Or.inl ⟨_, _, _, _, _, _, h⟩))
    · have h : extract_period_filters db t =
          ([between_condition db],
           [Param.pstr (dateStr yr mon 1), Param.pstr (dateStr yr mon (monthLastDay yr mon))],
           some "day", some yr) := by
        simp [extract_period_filters, epfCore, hmy, hqy, hyv, hq, between_contains_BETWEEN]
      exact Or.inr (Or.inl ⟨_, _, _, _, h⟩)
  · by_cases hq : q ≠ 0 ∧ yr2 ≠ 0
    · have h : extract_period_filters db t =
          ([between_condition db, between_condition db],
           [Param.pstr (dateStr yr mon 1), Param.pstr (dateStr yr mon (monthLastDay yr mon)),
            Param.pstr (dateStr yr2 (1 + (q - 1) * 3) 1),
            Param.pstr (dateStr yr2 (1 + (q - 1) * 3 + 2) (monthLastDay yr2 (1 + (q - 1) * 3 + 2)))],
           some "day", some yr2) := by
        simp [extract_period_filters, epfCore, hmy, hqy, hyv, hq.1, hq.2,
          between_contains_BETWEEN]
      exact Or.inr (Or.inr (Or.inl ⟨_, _, _, _, _, _, h⟩))
    · have h : extract_period_filters db t =
          ([between_condition db],
           [Param.pstr (dateStr yr mon 1), Param.pstr (dateStr yr mon (monthLastDay yr mon))],
           some "day", some yr) := by
        simp [extract_period_filters, epfCore, hmy, hqy, hyv, hq, between_contains_BETWEEN]
      exact Or.inr (Or.inl ⟨_, _, _, _, h⟩)

/-- The period-filter fragments scan cleanly and account for exactly the
period-filter parameters. -/
theorem epf_forall₂ (db : DbType) (t : String) :
    ∃ ns, List.Forall₂ (phOK db) (extract_period_filters db t).1 ns ∧
      ns.sum = (extract_period_filters db t).2.1.length := by
  rcases epf_shape db t with ⟨ib, sy, h⟩ | ⟨p1, p2, ib, sy, h⟩ |
    ⟨p1, p2, p3, p4, ib, sy, h⟩ | ⟨yr, ib, sy, h⟩ <;> rw [h]
  · exact ⟨[], .nil, rfl⟩
  · exact ⟨[2], .cons (between_phOK db) .nil, rfl⟩
  · exact ⟨[2, 2], .cons (between_phOK db) (.cons (between_phOK db) .nil), rfl⟩
  · exact ⟨[1], .cons (yearcond_phOK db) .nil, rfl⟩

/-! The where-clause fragment: characters, replace/strip behaviour, scanning. -/

theorem toLower_ne_W (c : Char) : Char.toLower c ≠ 'W' := by
  have hdef : Char.toLower c =
      if c.toNat ≥ 65 ∧ c.toNat ≤ 90 then Char.ofNat (c.toNat + 32) else c := rfl
  rw [hdef]
  split
  · rename_i h
    have hb1 : 97 ≤ c.toNat + 32 := by omega
    have hb2 : c.toNat + 32 ≤ 122 := by omega
    generalize c.toNat + 32 = m at hb1 hb2 ⊢
    interval_cases m <;> decide
  · rename_i h
    intro he
    subst he
    exact h (by decide)

theorem pyLower_ne_W (q : String) : ∀ c ∈ (pyLower q).data, c ≠ 'W' := by
  intro c hc
  have hd : (pyLower q).data = q.data.map Char.toLower := rfl
  rw [hd] at hc
  obtain ⟨d, _, rfl⟩ := List.mem_map.mp hc
  exact toLower_ne_W d

theorem tailAfterFirst_sub (pat : List Char) :
    ∀ (s r : List Char), tailAfterFirst pat s = some r → ∀ c ∈ r, c ∈ s := by
  intro s
  induction s with
  | nil =>
    intro r h
    unfold tailAfterFirst at h
    split at h
    · injection h with h
      subst h
      intro c hc
      cases hc
    · cases h
  | cons a rest ih =>
    intro r h
    unfold tailAfterFirst at h
    split at h
    · injection h with h
      subst h
      intro c hc
      exact List.drop_subset _ _ hc
    · intro c hc
      exact List.mem_cons_of_mem a (ih r h c hc)

theorem pyStrip_sub (s : String) : ∀ c ∈ (pyStrip s).data, c ∈ s.data := by
  intro c hc
  have hd : (pyStrip s).data =
      ((s.data.dropWhile pySpace).reverse.dropWhile pySpace).reverse := rfl
  rw [hd, List.mem_reverse] at hc
  have h1 := List.dropWhile_subset pySpace hc
  rw [List.mem_reverse] at h1
  exact List.dropWhile_subset pySpace h1

theorem valCore_sub (s : List Char) : ∀ c ∈ valCore s, c ∈ s := by
  intro x hx
  unfold valCore at hx
  suffices hs : x ∈ s.reverse from List.mem_reverse.mp hs
  split at hx
  · rename_i c rest heq
    rw [heq]
    split at hx
    · exact List.mem_cons_of_mem _ (List.mem_cons_of_mem _ (List.mem_reverse.mp hx))
    · exact List.mem_cons_of_mem _ (List.mem_reverse.mp hx)
  · rename_i c rest hno heq
    split at hx
    · rw [heq]
      exact List.mem_cons_of_mem _ (List.mem_reverse.mp hx)
    · exact List.mem_reverse.mpr hx
  · cases hx

theorem valOf_sub (s : List Char) (val : String) (h : valOf s = some val) :
    ∀ c ∈ val.data, c ∈ s := by
  unfold valOf at h
  split at h
  · cases h
  · injection h with h
    subst h
    exact valCore_sub s

theorem opBody_sub (r2 : List Char) : ∀ c ∈ opBody r2, c ∈ r2 := by
  intro x hx
  unfold opBody at hx
  split at hx
  · rename_i q rest heq
    split at hx
    · have : x ∈ q :: rest := List.mem_cons_of_mem q hx
      rw [← heq] at this
      exact List.dropWhile_subset pySpace this
    · exact List.dropWhile_subset pySpace hx
  · exact List.dropWhile_subset pySpace hx

theorem matchWhereTail_shape (tl col op val : String)
    (h : matchWhereTail tl = some (col, op, val)) :
    (∀ c ∈ col.data, isColChar c = true) ∧ (op = "=" ∨ op = ">" ∨ op = "<") ∧
    (∀ c ∈ col.data, c ∈ tl.data) ∧ (∀ c ∈ val.data, c ∈ tl.data) ∧ col.data ≠ [] := by
  unfold matchWhereTail at h
  split at h
  · cases h
  · rename_i h0
    split at h
    · rename_i c r2 heq
      split at h
      · rename_i hop
        split at h
        · rename_i val0 hval
          rw [Option.some.injEq, Prod.mk.injEq, Prod.mk.injEq] at h
          obtain ⟨h1, h2, h3⟩ := h
          subst h1
          subst h2
          subst h3
          refine ⟨?_, ?_, ?_, ?_, ?_⟩
          · intro x hx
            exact List.mem_takeWhile_imp hx
          · rcases (by simpa using hop : (c = '=' ∨ c = '>') ∨ c = '<') with (h | h) | h <;>
              subst h
            · exact Or.inl rfl
            · exact Or.inr (Or.inl rfl)
            · exact Or.inr (Or.inr rfl)
          · intro x hx
            exact List.takeWhile_subset isColChar hx
          · intro x hx
            have hm1 := valOf_sub _ _ hval x hx
            have hm2 := opBody_sub r2 x hm1
            have hm3 : x ∈ c :: r2 := List.mem_cons_of_mem c hm2
            rw [← heq] at hm3
            exact List.dropWhile_subset isColChar (List.dropWhile_subset pySpace hm3)
          · simpa [List.isEmpty_iff] using h0
        · cases h
      · cases h
    · cases h

theorem whereTailOf_sub (q tl : String) (h : whereTailOf q = some tl) :
    ∀ c ∈ tl.data, c ∈ (pyLower q).data := by
  unfold whereTailOf at h
  by_cases hw : strContains (" " ++ pyLower q ++ " ") " where " = true
  · rw [if_pos hw] at h
    rcases heq : tailAfterFirst "where".data (pyLower q).data with _ | tl0 <;> rw [heq] at h
    · cases h
    · rw [Option.some.injEq] at h
      subst h
      intro c hc
      exact tailAfterFirst_sub _ _ _ heq c (pyStrip_sub _ c hc)
  · rw [if_neg hw] at h
    cases h

theorem whereParsed_chars (q col op val : String) (h : whereParsed q = some (col, op, val)) :
    (∀ c ∈ col.data, isColChar c = true) ∧ (op = "=" ∨ op = ">" ∨ op = "<") ∧
    (∀ c ∈ col.data, c ≠ 'W') ∧ (∀ c ∈ val.data, c ≠ 'W') ∧ col.data ≠ [] := by
  unfold whereParsed at h
  rcases heq : whereTailOf q with _ | tl <;> rw [heq] at h
  · cases h
  · obtain ⟨h1, h2, h3, h4, h5⟩ := matchWhereTail_shape tl col op val h
    exact ⟨h1, h2,
      fun c hc => pyLower_ne_W q c (whereTailOf_sub q tl heq c (h3 c hc)),
      fun c hc => pyLower_ne_W q c (whereTailOf_sub q tl heq c (h4 c hc)), h5⟩

theorem replaceWHERE_cons_ne (c : Char) (rest : List Char) (hc : c ≠ 'W') :
    replaceWHERE (c :: rest) = c :: replaceWHERE rest := by
  rw [replaceWHERE.eq_def]
  split
  · rename_i heq
    injection heq with h1 _
    exact absurd h1 hc
  · rename_i c2 rest2 hno heq
    injection heq with h1 h2
    rw [h1, h2]
  · rename_i heq
    cases heq

theorem replaceWHERE_id (s : List Char) (h : ∀ c ∈ s, c ≠ 'W') : replaceWHERE s = s := by
  induction s with
  | nil => rfl
  | cons c rest ih =>
    rw [replaceWHERE_cons_ne c rest (h c (List.mem_cons_self c rest))]
    rw [ih fun d hd => h d (List.mem_cons_of_mem c hd)]

theorem replaceWHERE_prefix (t : List Char) :
    replaceWHERE ('W' :: 'H' :: 'E' :: 'R' :: 'E' :: t) = replaceWHERE t := rfl

theorem pyStrip_clean (c0 : Char) (mid : List Char) (hc0 : pySpace c0 = false) :
    pyStrip ⟨' ' :: (c0 :: (mid ++ [sqc]))⟩ = ⟨c0 :: (mid ++ [sqc])⟩ := by
  apply String.ext
  show (((' ' :: (c0 :: (mid ++ [sqc]))).dropWhile pySpace).reverse.dropWhile
      pySpace).reverse = c0 :: (mid ++ [sqc])
  rw [List.dropWhile_cons_of_pos (by decide), List.dropWhile_cons_of_neg (by simp [hc0])]
  have hrev : (c0 :: (mid ++ [sqc])).reverse = sqc :: (c0 :: mid).reverse := by
    simp
  rw [hrev, List.dropWhile_cons_of_neg (by decide)]
  simp

theorem colChar_neutral (c : Char) (h : isColChar c = true) : neutralChar c := by
  refine ⟨?_, ?_, ?_⟩ <;> intro he <;> subst he <;> exact absurd h (by decide)

theorem colstr_phOK (db : DbType) (s : String) (h : ∀ c ∈ s.data, isColChar c = true) :
    phOK db s 0 :=
  phOK_neutral fun c hc => colChar_neutral c (h c hc)

theorem colChar_not_space (c : Char) (h : isColChar c = true) : pySpace c = false := by
  by_contra hs
  rw [Bool.not_eq_false] at hs
  simp only [pySpace, Bool.or_eq_true, decide_eq_true_eq] at hs
  rcases hs with ((((hs | hs) | hs) | hs) | hs) | hs <;> subst hs <;>
    exact absurd h (by decide)

/-- The where-clause member of `parts` in `build_join_sql`: with the matched value
quote-free, it equals the stripped `col op \x27val\x27` and scans cleanly. -/
theorem wherePart_str (q col op val : String)
    (h : whereParsed q = some (col, op, val)) :
    pyStrip ⟨replaceWHERE (where_clause_of q).data⟩ =
      col ++ " " ++ op ++ " " ++ ("\x27" ++ val ++ "\x27") := by
  obtain ⟨hcol, hop, hcolW, hvalW, hcolne⟩ := whereParsed_chars q col op val h
  have hwc : where_clause_of q = "WHERE " ++ col ++ " " ++ op ++ " \x27" ++ val ++ "\x27" := by
    simp [where_clause_of, h]
  obtain ⟨c0, colrest, hcoldata⟩ : ∃ c0 colrest, col.data = c0 :: colrest := by
    cases hcd : col.data with
    | nil => exact absurd hcd hcolne
    | cons a l => exact ⟨a, l, rfl⟩
  have hc0col : isColChar c0 = true := hcol c0 (by rw [hcoldata]; exact List.mem_cons_self c0 colrest)
  have hopd : op.data = ['='] ∨ op.data = ['>'] ∨ op.data = ['<'] := by
    rcases hop with h1 | h1 | h1 <;> subst h1
    · exact Or.inl rfl
    · exact Or.inr (Or.inl rfl)
    · exact Or.inr (Or.inr rfl)
  have hdata : (where_clause_of q).data =
      'W' :: 'H' :: 'E' :: 'R' :: 'E' :: ' ' ::
        (c0 :: ((colrest ++ (' ' :: (op.data ++ (' ' :: sqc :: val.data)))) ++ [sqc])) := by
    rw [hwc]
    have e1 : "WHERE ".data = ['W', 'H', 'E', 'R', 'E', ' '] := rfl
    have e2 : " ".data = [' '] := rfl
    have e3 : " \x27".data = [' ', sqc] := rfl
    have e4 : "\x27".data = [sqc] := rfl
    simp [String.data_append, e1, e2, e3, e4, hcoldata]
    all_goals decide
  have hnoW : ∀ c ∈ ' ' ::
      (c0 :: ((colrest ++ (' ' :: (op.data ++ (' ' :: sqc :: val.data)))) ++ [sqc])), c ≠ 'W' := by
    intro c hc
    have hcs : c = ' ' ∨ c ∈ col.data ∨ c ∈ op.data ∨ c = sqc ∨ c ∈ val.data := by
      simp only [List.mem_cons, List.mem_append, List.mem_singleton, hcoldata] at hc ⊢
      tauto
    rcases hcs with rfl | hc2 | hc2 | rfl | hc2
    · decide
    · exact hcolW c hc2
    · rcases hopd with h1 | h1 | h1 <;> rw [h1] at hc2 <;>
        (simp only [List.mem_singleton] at hc2; subst hc2; decide)
    · decide
    · exact hvalW c hc2
  have hrepl : pyStrip ⟨replaceWHERE (where_clause_of q).data⟩ =
      ⟨c0 :: ((colrest ++ (' ' :: (op.data ++ (' ' :: sqc :: val.data)))) ++ [sqc])⟩ := by
    rw [hdata, replaceWHERE_prefix, replaceWHERE_id _ hnoW]
    exact pyStrip_clean c0 _ (colChar_not_space c0 hc0col)
  have hstr : (⟨c0 :: ((colrest ++ (' ' :: (op.data ++ (' ' :: sqc :: val.data)))) ++ [sqc])⟩ :
      String) = col ++ " " ++ op ++ " " ++ ("\x27" ++ val ++ "\x27") := by
    apply String.ext
    have e2 : " ".data = [' '] := rfl
    have e4 : "\x27".data = [sqc] := rfl
    simp [String.data_append, e2, e4, hcoldata]
    all_goals decide
  rw [hrepl, hstr]

theorem wherePart_spec (db : DbType) (q col op val : String)
    (h : whereParsed q = some (col, op, val)) (hval : ∀ c ∈ val.data, c ≠ sqc) :
    pyStrip ⟨replaceWHERE (where_clause_of q).data⟩ =
      col ++ " " ++ op ++ " " ++ ("\x27" ++ val ++ "\x27") ∧
    phOK db (col ++ " " ++ op ++ " " ++ ("\x27" ++ val ++ "\x27")) 0 := by
  obtain ⟨hcol, hop, _, _, _⟩ := whereParsed_chars q col op val h
  refine ⟨wherePart_str q col op val h, ?_⟩
  have h1 : phOK db col 0 := colstr_phOK db col hcol
  have h2 : phOK db " " 0 := phOK_neutral (by decide)
  have h3 : phOK db op 0 := by
    rcases hop with ho | ho | ho <;> subst ho <;> exact phOK_neutral (by decide)
  have h5 : phOK db ("\x27" ++ val ++ "\x27") 0 := phOK_quoted hval
  exact ((((h1.append h2).append h3).append h2).append h5).cast (by omega)

/-! Scanner runs that cross literal boundaries, for fragments with interpolated
numbers inside SQL string literals. -/

/-- The inside-a-literal scanner state. -/
def litSt : ScanSt := ⟨true, false⟩

/-- A fragment scanned from state `st1` to state `st2` counting `n` placeholders. -/
def scanOK (db : DbType) (st1 : ScanSt) (p : String) (st2 : ScanSt) (n : Nat) : Prop :=
  scanChars db st1 p.data = (st2, n)

theorem scanOK.comp {db : DbType} {s1 s2 s3 : ScanSt} {a b : String} {m n : Nat}
    (ha : scanOK db s1 a s2 m) (hb : scanOK db s2 b s3 n) :
    scanOK db s1 (a ++ b) s3 (m + n) := by
  unfold scanOK at *
  simp [String.data_append, scanChars_append, ha, hb]

theorem scanOK.toPhOK {db : DbType} {p : String} {n : Nat}
    (h : scanOK db scanBase p scanBase n) : phOK db p n := h

theorem phOK.toScanOK {db : DbType} {p : String} {n : Nat}
    (h : phOK db p n) : scanOK db scanBase p scanBase n := h

theorem scanOK_digits (db : DbType) (n : Nat) : scanOK db litSt (natStr n) litSt 0 :=
  scanChars_inLit db _ (natDigits_ne_sqc n)

theorem scanOK_pad (db : DbType) (w n : Nat) : scanOK db litSt (padZeros w n) litSt 0 :=
  scanChars_inLit db _ fun c hc => (padZeros_neutral w n c hc).1

theorem scanOK_noquote (db : DbType) (p : String) (h : ∀ c ∈ p.data, c ≠ sqc) :
    scanOK db litSt p litSt 0 :=
  scanChars_inLit db _ h

/-! Placeholder counts of the dialect-adapter fragments. -/

theorem pe_phOK (db : DbType) (bucket : Option String) (l g o a : String)
    (h : period_expressions db bucket = some (l, g, o, a)) :
    phOK db l 0 ∧ phOK db g 0 ∧ phOK db o 0 ∧ phOK db a 0 := by
  unfold period_expressions at h
  cases bucket with
  | none => cases h
  | some b =>
    cases db <;> dsimp only at h <;> split_ifs at h <;> cases h <;>
      exact ⟨by unfold phOK; rfl, by unfold phOK; rfl, by unfold phOK; rfl,
        by unfold phOK; rfl⟩

theorem aggLookup_mem (t v : String) (h : aggLookup t = some v) :
    v = "SUM" ∨ v = "AVG" ∨ v = "COUNT" ∨ v = "MAX" ∨ v = "MIN" := by
  unfold aggLookup at h
  rcases hf : AGG_KEYWORDS.find? fun kv => kv.1 = t with _ | kv <;> rw [hf] at h
  · cases h
  · dsimp only [Option.map] at h
    injection h with h
    subst h
    have hmem := List.mem_of_find?_eq_some hf
    unfold AGG_KEYWORDS at hmem
    simp only [List.mem_cons, List.not_mem_nil, or_false] at hmem
    rcases hmem with h | h | h | h | h | h | h | h | h | h | h | h <;> subst h <;> simp

theorem aggOf_mem (tokens : List String) :
    (tokens.findSome? aggLookup).getD "SUM" = "SUM" ∨
    (tokens.findSome? aggLookup).getD "SUM" = "AVG" ∨
    (tokens.findSome? aggLookup).getD "SUM" = "COUNT" ∨
    (tokens.findSome? aggLookup).getD "SUM" = "MAX" ∨
    (tokens.findSome? aggLookup).getD "SUM" = "MIN" := by
  rcases hf : tokens.findSome? aggLookup with _ | v
  · simp
  · obtain ⟨x, _, hx⟩ := List.exists_of_findSome?_eq_some hf
    simpa using aggLookup_mem x v hx

theorem select_measure_phOK (db : DbType) (qt : String) (tokens : List String) (agg : String)
    (hagg : agg = "SUM" ∨ agg = "AVG" ∨ agg = "COUNT" ∨ agg = "MAX" ∨ agg = "MIN") :
    phOK db (select_measure qt tokens agg) 0 := by
  unfold select_measure
  split_ifs
  · exact phOK_neutral (by decide)
  · exact phOK_neutral (by decide)
  · rcases hagg with h | h | h | h | h <;> subst h <;> exact phOK_neutral (by decide)

theorem limit_phOK (db : DbType) (o : Option Nat) :
    phOK db (match o with
      | some n => if n ≠ 0 then "\nLIMIT " ++ natStr n else ""
      | none => "") 0 := by
  cases o with
  | none => exact phOK_empty db
  | some n =>
    show phOK db (if n ≠ 0 then "\nLIMIT " ++ natStr n else "") 0
    by_cases hn : n ≠ 0
    · rw [if_pos hn]
      exact ((phOK_neutral (by decide)).append (natStr_phOK db n)).cast (by omega)
    · rw [if_neg hn]
      exact phOK_empty db

/-! Placeholder counts of the calendar-fill templates. -/

theorem calPiece_phOK (db : DbType) (y k : Nat) (m1 m2 : String)
    (hm1 : ∀ c ∈ m1.data, c ≠ sqc) (hm2 : ∀ c ∈ m2.data, c ≠ sqc) :
    phOK db ("(\x27" ++ natStr y ++ m1 ++ m2 ++ "\x27, " ++ natStr k ++ ")") 0 := by
  have h0 : scanOK db scanBase "(\x27" litSt 0 := by cases db <;> rfl
  have hy : scanOK db litSt (natStr y) litSt 0 := scanOK_digits db y
  have hq : scanOK db litSt "\x27, " scanBase 0 := by cases db <;> rfl
  have hp : scanOK db scanBase ")" scanBase 0 := by cases db <;> rfl
  exact (((((((h0.comp hy).comp (scanOK_noquote db m1 hm1)).comp
    (scanOK_noquote db m2 hm2)).comp hq).comp
    (natStr_phOK db k).toScanOK).comp hp).toPhOK).cast (by omega)

theorem cal_rows_quarter_phOK (db : DbType) (y : Nat) : phOK db (cal_rows_quarter y) 0 := by
  unfold cal_rows_quarter
  have hr : List.range 4 = [0, 1, 2, 3] := rfl
  rw [hr, List.map_cons, List.map_cons, List.map_cons, List.map_cons, List.map_nil]
  have hp : ∀ i : Nat, phOK db ("(\x27" ++ natStr y ++ "-Q" ++ natStr (i + 1) ++ "\x27, "
      ++ natStr (i + 1) ++ ")") 0 := fun i =>
    calPiece_phOK db y (i + 1) "-Q" (natStr (i + 1)) (by decide) (natDigits_ne_sqc (i + 1))
  exact (pyJoin_phOK db ", " (phOK_neutral (by decide)) _ [0, 0, 0, 0]
    (.cons (hp 0) (.cons (hp 1) (.cons (hp 2) (.cons (hp 3) .nil))))).cast rfl

theorem cal_rows_month_phOK (db : DbType) (y : Nat) : phOK db (cal_rows_month y) 0 := by
  unfold cal_rows_month
  have hr : List.range 12 = [0, 1, 2, 3, 4, 5, 6, 7, 8, 9, 10, 11] := rfl
  rw [hr]
  simp only [List.map_cons, List.map_nil]
  have hp : ∀ i : Nat, phOK db ("(\x27" ++ natStr y ++ "-" ++ padZeros 2 (i + 1) ++ "\x27, "
      ++ natStr (i + 1) ++ ")") 0 := fun i =>
    calPiece_phOK db y (i + 1) "-" (padZeros 2 (i + 1)) (by decide)
      (fun c hc => (padZeros_neutral 2 (i + 1) c hc).1)
  exact (pyJoin_phOK db ", " (phOK_neutral (by decide)) _
    [0, 0, 0, 0, 0, 0, 0, 0, 0, 0, 0, 0]
    (.cons (hp 0) (.cons (hp 1) (.cons (hp 2) (.cons (hp 3) (.cons (hp 4) (.cons (hp 5)
      (.cons (hp 6) (.cons (hp 7) (.cons (hp 8) (.cons (hp 9) (.cons (hp 10)
      (.cons (hp 11) .nil))))))))))))).cast rfl

theorem calHead_year_phOK (db : DbType) (y : Nat) :
    phOK db ("WITH cal(period, ord) AS (VALUES (\x27" ++ natStr y ++ "\x27, 1))") 0 := by
  have h0 : scanOK db scanBase "WITH cal(period, ord) AS (VALUES (\x27" litSt 0 := by
    cases db <;> rfl
  have h1 : scanOK db litSt "\x27, 1))" scanBase 0 := by cases db <;> rfl
  exact (((h0.comp (scanOK_digits db y)).comp h1).toPhOK).cast (by omega)

theorem calFillBody_phOK (db : DbType) (calHead lbl sm fw grp : String) (k : Nat)
    (h1 : phOK db calHead 0) (h2 : phOK db lbl 0) (h3 : phOK db sm 0)
    (h4 : phOK db fw k) (h5 : phOK db grp 0) :
    phOK db (calFillBody calHead lbl sm base_joins fw grp) k := by
  unfold calFillBody
  have c1 : phOK db ",\nagg AS (\n  SELECT " 0 := phOK_neutral (by decide)
  have c2 : phOK db " AS period, " 0 := phOK_neutral (by decide)
  have c3 : phOK db "\n  " 0 := phOK_neutral (by decide)
  have cj : phOK db base_joins 0 := phOK_neutral (by decide)
  have c4 : phOK db "\n  GROUP BY " 0 := phOK_neutral (by decide)
  have c5 : phOK db "\n)\nSELECT cal.period, COALESCE(agg.value, 0) AS value\nFROM cal\nLEFT JOIN agg ON agg.period = cal.period\nORDER BY cal.ord;" 0 :=
    phOK_neutral (by decide)
  exact ((((((((((h1.append c1).append h2).append c2).append h3).append c3).append
    cj).append h4).append c4).append h5).append c5).cast (by omega)

theorem calFill_phOK (db : DbType) (bucket : Option String) (y : Nat)
    (lbl sm fw grp : String) (k : Nat) (sqlf : String)
    (h2 : phOK db lbl 0) (h3 : phOK db sm 0) (h4 : phOK db fw k) (h5 : phOK db grp 0)
    (h : with_calendar_fill_time_only db bucket y lbl sm fw grp = some sqlf) :
    phOK db sqlf k := by
  unfold with_calendar_fill_time_only at h
  split at h <;> cases h
  · have hhead : phOK DbType.sqlite
        ("WITH cal(period, ord) AS (VALUES " ++ cal_rows_quarter y ++ ")") 0 :=
      (((phOK_neutral (by decide)).append (cal_rows_quarter_phOK DbType.sqlite y)).append
        (phOK_neutral (by decide))).cast (by omega)
    exact calFillBody_phOK _ _ _ _ _ _ _ hhead h2 h3 h4 h5
  · have hhead : phOK DbType.sqlite
        ("WITH cal(period, ord) AS (VALUES " ++ cal_rows_month y ++ ")") 0 :=
      (((phOK_neutral (by decide)).append (cal_rows_month_phOK DbType.sqlite y)).append
        (phOK_neutral (by decide))).cast (by omega)
    exact calFillBody_phOK _ _ _ _ _ _ _ hhead h2 h3 h4 h5
  · exact calFillBody_phOK _ _ _ _ _ _ _ (calHead_year_phOK _ y) h2 h3 h4 h5
  · have hA : phOK DbType.postgres
        "WITH cal AS (\n  SELECT q AS ord, to_char(make_date(" 0 := phOK_neutral (by decide)
    have hB : phOK DbType.postgres
        ", 1 + (q-1)*3, 1), \x27YYYY-\"Q\"Q\x27) AS period\n  FROM generate_series(1,4) AS q\n)" 0 := by
      unfold phOK
      rfl
    exact calFillBody_phOK _ _ _ _ _ _ _
      (((hA.append (natStr_phOK _ y)).append hB).cast (by omega)) h2 h3 h4 h5
  · have hA : scanOK DbType.postgres scanBase
        "WITH cal AS (\n  SELECT to_char(d, \x27YYYY-MM\x27) AS period, EXTRACT(MONTH FROM d)::int AS ord\n  FROM generate_series(date \x27" litSt 0 := rfl
    have hB : scanOK DbType.postgres litSt "-01-01\x27, date \x27" litSt 0 := rfl
    have hC : scanOK DbType.postgres litSt
        "-12-01\x27, interval \x271 month\x27) AS d\n)" scanBase 0 := rfl
    exact calFillBody_phOK _ _ _ _ _ _ _
      ((((((hA.comp (scanOK_digits _ y)).comp hB).comp
        (scanOK_digits _ y)).comp hC).toPhOK).cast (by omega)) h2 h3 h4 h5
  · exact calFillBody_phOK _ _ _ _ _ _ _ (calHead_year_phOK _ y) h2 h3 h4 h5

theorem finalWhere_phOK (db : DbType) (parts : List String) (ns : List Nat)
    (h : List.Forall₂ (phOK db) parts ns) :
    phOK db (if parts ≠ [] then "WHERE " ++ pyJoin " AND " parts ++ "\n" else "") ns.sum := by
  by_cases hp : parts ≠ []
  · rw [if_pos hp]
    exact (((phOK_neutral (by decide)).append
      (pyJoin_phOK db " AND " (phOK_neutral (by decide)) parts ns h)).append
      (phOK_neutral (by decide))).cast (by omega)
  · rw [if_neg hp]
    rw [not_not] at hp
    subst hp
    cases h
    exact phOK_empty db

theorem dim_block_parity (db : DbType) (dim gc : String) (inc : Bool)
    (pe : Option (String × String × String × String)) (sm fw lc : String)
    (pp dp : List Param) (k : Nat)
    (hdim : phOK db dim 0) (hgc : phOK db gc 0) (hsm : phOK db sm 0)
    (hfw : phOK db fw k) (hlc : phOK db lc 0)
    (hpe : ∀ l g o a, pe = some (l, g, o, a) →
      phOK db l 0 ∧ phOK db g 0 ∧ phOK db o 0 ∧ phOK db a 0) :
    countPlaceholders db (dim_block dim gc inc pe sm fw lc pp dp).1 = k ∧
    (dim_block dim gc inc pe sm fw lc pp dp).2 = pp ++ dp := by
  have hsel : phOK db "SELECT " 0 := phOK_neutral (by decide)
  have hcomma : phOK db ", " 0 := phOK_neutral (by decide)
  have hAS : phOK db " AS " 0 := phOK_neutral (by decide)
  have hnl : phOK db "\n" 0 := phOK_neutral (by decide)
  have hjoins : phOK db base_joins 0 := phOK_neutral (by decide)
  have hgb : phOK db "GROUP BY " 0 := phOK_neutral (by decide)
  have hsemi : phOK db ";" 0 := phOK_neutral (by decide)
  have hnonper : countPlaceholders db ("SELECT " ++ dim ++ ", " ++ sm ++ "\n" ++ base_joins
      ++ fw ++ "GROUP BY " ++ gc ++ "\nORDER BY 2 DESC" ++ lc ++ ";") = k := by
    have hod : phOK db "\nORDER BY 2 DESC" 0 := phOK_neutral (by decide)
    have hchain := ((((((((((hsel.append hdim).append hcomma).append hsm).append hnl).append hjoins).append hfw).append hgb).append hgc).append hod).append hlc).append hsemi
    exact phOK.count (hchain.cast (by omega))
  unfold dim_block
  rcases pe with _ | ⟨l, g, o, a⟩
  · exact ⟨hnonper, rfl⟩
  · cases inc
    · exact ⟨hnonper, rfl⟩
    · obtain ⟨hl, hg, ho, ha⟩ := hpe l g o a rfl
      refine ⟨?_, rfl⟩
      have hite : phOK db (if o ≠ "" then "ORDER BY " ++ gc ++ ", " ++ o ++ "\n"
          else "ORDER BY 3 DESC\n") 0 := by
        by_cases hok : o ≠ ""
        · rw [if_pos hok]
          exact (((((phOK_neutral (by decide) : phOK db "ORDER BY " 0).append hgc).append
            hcomma).append ho).append hnl).cast (by omega)
        · rw [if_neg hok]
          exact phOK_neutral (by decide)
      have hchain := (((((((((((((((((hsel.append hdim).append hcomma).append hl).append hAS).append ha).append hcomma).append hsm).append hnl).append hjoins).append hfw).append hgb).append hgc).append hcomma).append hg).append hnl).append hite).append hlc).append hsemi
      exact phOK.count (hchain.cast (by omega))

theorem time_only_parity (db : DbType) (l g o a sm fw lc : String) (k : Nat)
    (hl : phOK db l 0) (hg : phOK db g 0) (ho : phOK db o 0) (ha : phOK db a 0)
    (hsm : phOK db sm 0) (hfw : phOK db fw k) (hlc : phOK db lc 0) :
    countPlaceholders db ("SELECT " ++ l ++ " AS " ++ a ++ ", " ++ sm ++ "\n" ++ base_joins
      ++ fw ++ "GROUP BY " ++ g ++ "\n"
      ++ (if o ≠ "" then "ORDER BY " ++ o ++ "\n" else "ORDER BY 2 DESC\n") ++ lc ++ ";") = k := by
  have hsel : phOK db "SELECT " 0 := phOK_neutral (by decide)
  have hcomma : phOK db ", " 0 := phOK_neutral (by decide)
  have hAS : phOK db " AS " 0 := phOK_neutral (by decide)
  have hnl : phOK db "\n" 0 := phOK_neutral (by decide)
  have hjoins : phOK db base_joins 0 := phOK_neutral (by decide)
  have hgb : phOK db "GROUP BY " 0 := phOK_neutral (by decide)
  have hsemi : phOK db ";" 0 := phOK_neutral (by decide)
  have hite : phOK db (if o ≠ "" then "ORDER BY " ++ o ++ "\n" else "ORDER BY 2 DESC\n") 0 := by
    by_cases hok : o ≠ ""
    · rw [if_pos hok]
      exact (((phOK_neutral (by decide) : phOK db "ORDER BY " 0).append ho).append hnl).cast
        (by omega)
    · rw [if_neg hok]
      exact phOK_neutral (by decide)
  have hchain := ((((((((((((hsel.append hl).append hAS).append ha).append hcomma).append hsm).append hnl).append hjoins).append hfw).append hgb).append hg).append hnl).append hite).append hlc
  exact phOK.count ((hchain.append hsemi).cast (by omega))

theorem default_parity (db : DbType) (sm fw : String) (k : Nat)
    (hsm : phOK db sm 0) (hfw : phOK db fw k) :
    countPlaceholders db ("SELECT " ++ sm ++ "\n" ++ base_joins ++ fw ++ "LIMIT 1;") = k := by
  have hchain := (((((phOK_neutral (by decide) : phOK db "SELECT " 0).append hsm).append
    (phOK_neutral (by decide) : phOK db "\n" 0)).append
    (phOK_neutral (by decide) : phOK db base_joins 0)).append hfw).append
    (phOK_neutral (by decide) : phOK db "LIMIT 1;" 0)
  exact phOK.count (hchain.cast (by omega))

theorem Forall₂_app {α β : Type} {R : α → β → Prop} :
    ∀ {l1 : List α} {u1 : List β} {l2 : List α} {u2 : List β}, List.Forall₂ R l1 u1 →
      List.Forall₂ R l2 u2 → List.Forall₂ R (l1 ++ l2) (u1 ++ u2) := by
  intro l1 u1 l2 u2 h1 h2
  induction h1 with
  | nil => simpa using h2
  | cons hx hrest ih =>
    rw [List.cons_append, List.cons_append]
    exact .cons hx ih

theorem build_parity_core (db : DbType) (q : String) (tokens : List String) (agg : String)
    (wl : List String) (wns : List Nat)
    (hsm : phOK db (select_measure q tokens agg) 0)
    (hwl : (if where_clause_of q ≠ "" then [pyStrip ⟨replaceWHERE (where_clause_of q).data⟩]
      else []) = wl)
    (hwf : List.Forall₂ (phOK db) wl wns) (hwsum : wns.sum = 0) :
    countPlaceholders db (build_join_sql db q tokens agg (where_clause_of q)).1 =
      (build_join_sql db q tokens agg (where_clause_of q)).2.length := by
  rcases hepf : extract_period_filters db q with ⟨pparts, pparams, ib, sy⟩
  obtain ⟨pns, hpf, hpsum⟩ := epf_forall₂ db q
  rw [hepf] at hpf hpsum
  dsimp only at hpf hpsum
  simp only [build_join_sql, hepf, hwl]
  have hdim1 : phOK db "customers.customer_name AS dimension" 0 := phOK_neutral (by decide)
  have hdim2 : phOK db "customers.customer_name" 0 := phOK_neutral (by decide)
  have hdim3 : phOK db "products.product_name AS dimension" 0 := phOK_neutral (by decide)
  have hdim4 : phOK db "products.product_name" 0 := phOK_neutral (by decide)
  have hdim5 : phOK db "products.category AS dimension" 0 := phOK_neutral (by decide)
  have hdim6 : phOK db "products.category" 0 := phOK_neutral (by decide)
  have hlc := limit_phOK db (extract_top_n tokens)
  rcases hdbm : searchAnywhere tryDateBetweenAt (pyLower q).data with _ | ⟨d1, d2⟩ <;>
    dsimp only
  · have hef : List.Forall₂ (phOK db) ([] : List String) ([] : List Nat) := .nil
    have hfwF := Forall₂_app (Forall₂_app hwf hpf) hef
    have hfw := finalWhere_phOK db _ _ hfwF
    by_cases hd1 : tokens_contain tokens ["customer", "customers"] = true
    · rw [if_pos hd1]
      obtain ⟨h1, h2⟩ := dim_block_parity db _ _ _ _ _ _ _ _ _ _ hdim1 hdim2 hsm hfw hlc
        (fun l2 g2 o2 a2 hh => pe_phOK db _ l2 g2 o2 a2 hh)
      rw [h1, h2]
      simp only [List.sum_append, List.length_append, hwsum, hpsum, List.sum_nil,
        List.length_nil, List.sum_cons, List.length_cons]
      omega
    rw [if_neg hd1]
    by_cases hd2 : tokens_contain tokens ["product", "products"] = true
    · rw [if_pos hd2]
      obtain ⟨h1, h2⟩ := dim_block_parity db _ _ _ _ _ _ _ _ _ _ hdim3 hdim4 hsm hfw hlc
        (fun l2 g2 o2 a2 hh => pe_phOK db _ l2 g2 o2 a2 hh)
      rw [h1, h2]
      simp only [List.sum_append, List.length_append, hwsum, hpsum, List.sum_nil,
        List.length_nil, List.sum_cons, List.length_cons]
      omega
    rw [if_neg hd2]
    by_cases hd3 : tokens_contain tokens ["category", "categories"] = true
    · rw [if_pos hd3]
      obtain ⟨h1, h2⟩ := dim_block_parity db _ _ _ _ _ _ _ _ _ _ hdim5 hdim6 hsm hfw hlc
        (fun l2 g2 o2 a2 hh => pe_phOK db _ l2 g2 o2 a2 hh)
      rw [h1, h2]
      simp only [List.sum_append, List.length_append, hwsum, hpsum, List.sum_nil,
        List.length_nil, List.sum_cons, List.length_cons]
      omega
    rw [if_neg hd3]
    split
    · rename_i l g o a heqpe
      obtain ⟨hl, hg, ho, ha⟩ := pe_phOK db _ l g o a heqpe
      have hto := time_only_parity db l g o a _ _ _ _ hl hg ho ha hsm hfw hlc
      cases sy with
      | none =>
        dsimp only
        rw [hto]
        simp only [List.sum_append, List.length_append, hwsum, hpsum, List.sum_nil,
            List.length_nil, List.sum_cons, List.length_cons]
        omega
      | some y =>
        dsimp only
        split
        · rename_i sqlf hcf
          rcases ite_eq_iff.mp hcf with ⟨hc, hcf2⟩ | ⟨hc, hcf2⟩
          · dsimp only
            rw [(calFill_phOK db _ y l _ _ g _ sqlf hl hsm hfw hg hcf2).count]
            simp only [List.sum_append, List.length_append, hwsum, hpsum, List.sum_nil,
            List.length_nil, List.sum_cons, List.length_cons]
            omega
          · cases hcf2
        · dsimp only
          rw [hto]
          simp only [List.sum_append, List.length_append, hwsum, hpsum, List.sum_nil,
            List.length_nil, List.sum_cons, List.length_cons]
          omega
    · rename_i heqpe
      dsimp only
      rw [default_parity db _ _ _ hsm hfw]
      simp only [List.sum_append, List.length_append, hwsum, hpsum, List.sum_nil,
            List.length_nil, List.sum_cons, List.length_cons]
      omega
  · have hef : List.Forall₂ (phOK db) [between_condition db] ([2] : List Nat) :=
      .cons (between_phOK db) .nil
    have hfwF := Forall₂_app (Forall₂_app hwf hpf) hef
    have hfw := finalWhere_phOK db _ _ hfwF
    by_cases hd1 : tokens_contain tokens ["customer", "customers"] = true
    · rw [if_pos hd1]
      obtain ⟨h1, h2⟩ := dim_block_parity db _ _ _ _ _ _ _ _ _ _ hdim1 hdim2 hsm hfw hlc
        (fun l2 g2 o2 a2 hh => pe_phOK db _ l2 g2 o2 a2 hh)
      rw [h1, h2]
      simp only [List.sum_append, List.length_append, hwsum, hpsum, List.sum_nil,
        List.length_nil, List.sum_cons, List.length_cons]
      omega
    rw [if_neg hd1]
    by_cases hd2 : tokens_contain tokens ["product", "products"] = true
    · rw [if_pos hd2]
      obtain ⟨h1, h2⟩ := dim_block_parity db _ _ _ _ _ _ _ _ _ _ hdim3 hdim4 hsm hfw hlc
        (fun l2 g2 o2 a2 hh => pe_phOK db _ l2 g2 o2 a2 hh)
      rw [h1, h2]
      simp only [List.sum_append, List.length_append, hwsum, hpsum, List.sum_nil,
        List.length_nil, List.sum_cons, List.length_cons]
      omega
    rw [if_neg hd2]
    by_cases hd3 : tokens_contain tokens ["category", "categories"] = true
    · rw [if_pos hd3]
      obtain ⟨h1, h2⟩ := dim_block_parity db _ _ _ _ _ _ _ _ _ _ hdim5 hdim6 hsm hfw hlc
        (fun l2 g2 o2 a2 hh => pe_phOK db _ l2 g2 o2 a2 hh)
      rw [h1, h2]
      simp only [List.sum_append, List.length_append, hwsum, hpsum, List.sum_nil,
        List.length_nil, List.sum_cons, List.length_cons]
      omega
    rw [if_neg hd3]
    split
    · rename_i l g o a heqpe
      obtain ⟨hl, hg, ho, ha⟩ := pe_phOK db _ l g o a heqpe
      have hto := time_only_parity db l g o a _ _ _ _ hl hg ho ha hsm hfw hlc
      cases sy with
      | none =>
        dsimp only
        rw [hto]
        simp only [List.sum_append, List.length_append, hwsum, hpsum, List.sum_nil,
            List.length_nil, List.sum_cons, List.length_cons]
        omega
      | some y =>
        dsimp only
        split
        · rename_i sqlf hcf
          rcases ite_eq_iff.mp hcf with ⟨hc, hcf2⟩ | ⟨hc, hcf2⟩
          · dsimp only
            rw [(calFill_phOK db _ y l _ _ g _ sqlf hl hsm hfw hg hcf2).count]
            simp only [List.sum_append, List.length_append, hwsum, hpsum, List.sum_nil,
            List.length_nil, List.sum_cons, List.length_cons]
            omega
          · cases hcf2
        · dsimp only
          rw [hto]
          simp only [List.sum_append, List.length_append, hwsum, hpsum, List.sum_nil,
            List.length_nil, List.sum_cons, List.length_cons]
          omega
    · rename_i heqpe
      dsimp only
      rw [default_parity db _ _ _ hsm hfw]
      simp only [List.sum_append, List.length_append, hwsum, hpsum, List.sum_nil,
            List.length_nil, List.sum_cons, List.length_cons]
      omega

theorem translate_parity (db : DbType) (ok : Bool) (q : String)
    (hval : ∀ col op val, whereParsed q = some (col, op, val) → ∀ c ∈ val.data, c ≠ sqc) :
    countPlaceholders db (translate_question_to_sql db ok q).1 =
      (translate_question_to_sql db ok q).2.1.length := by
  unfold translate_question_to_sql
  dsimp only
  have hagg := aggOf_mem ((tokenize_and_tag ok q).1)
  have hsm := select_measure_phOK db q ((tokenize_and_tag ok q).1) _ hagg
  rcases hwp : whereParsed q with _ | ⟨⟨col, op, val⟩⟩
  · have hwceq : where_clause_of q = "" := by simp [where_clause_of, hwp]
    exact build_parity_core db q _ _ [] [] hsm (by simp [hwceq]) .nil rfl
  · obtain ⟨hweq, hwph⟩ := wherePart_spec db q col op val hwp (hval col op val hwp)
    have hwcd : (where_clause_of q).data ≠ [] := by
      have hwc2 : where_clause_of q =
          "WHERE " ++ col ++ " " ++ op ++ " \x27" ++ val ++ "\x27" := by
        simp [where_clause_of, hwp]
      rw [hwc2]
      simp [String.data_append]
    have hne : where_clause_of q ≠ "" := fun hh => hwcd (by rw [hh])
    refine build_parity_core db q _ _
      [col ++ " " ++ op ++ " " ++ ("\x27" ++ val ++ "\x27")] [0] hsm ?_ (.cons hwph .nil) rfl
    rw [if_pos hne]
    rw [hweq]

/-! Query shapes: calendar-fill statements and the shape guard. -/

/-- A rendered statement is in calendar-fill shape iff its text starts with the
`WITH cal` common table expression all six calendar-fill templates open with. -/
def sqlIsCalFill (s : String) : Bool := isPrefixList "WITH cal".data s.data

/-- The resolved bucket of `build_join_sql`: explicit vocabulary, else the bucket
inferred from the period filters. -/
def resolved_bucket (db : DbType) (tokens : List String) (q : String) : Option String :=
  if (extract_time_bucket tokens q).isNone && (extract_period_filters db q).2.2.1.isSome
  then (extract_period_filters db q).2.2.1
  else extract_time_bucket tokens q

/-- The single pinning year extracted by the period filters. -/
def single_year_of (db : DbType) (q : String) : Option Nat :=
  (extract_period_filters db q).2.2.2

theorem isPrefixList_of_append (p : List Char) :
    ∀ (s t : List Char), isPrefixList p s = true → isPrefixList p (s ++ t) = true := by
  induction p with
  | nil =>
    intro s t _
    rfl
  | cons c cs ih =>
    intro s t h
    cases s with
    | nil => cases h
    | cons d ds =>
      rw [List.cons_append]
      rw [isPrefixList] at h ⊢
      rw [Bool.and_eq_true] at h ⊢
      exact ⟨h.1, ih ds t h.2⟩

theorem sqlIsCalFill_of_head (s : String) (h : s.data.head? ≠ some 'W') :
    sqlIsCalFill s = false := by
  unfold sqlIsCalFill
  rcases hd : s.data with _ | ⟨c, rest⟩
  · rfl
  · have hc : c ≠ 'W' := by
      rw [hd] at h
      simp only [List.head?_cons] at h
      intro he
      exact h (by rw [he])
    have hp : "WITH cal".data = 'W' :: "ITH cal".data := rfl
    rw [hp, isPrefixList]
    simp [Ne.symm hc]

theorem calFill_isCalFill (db : DbType) (bucket : Option String) (y : Nat)
    (lbl sm fw grp sqlf : String)
    (h : with_calendar_fill_time_only db bucket y lbl sm fw grp = some sqlf) :
    sqlIsCalFill sqlf = true := by
  unfold with_calendar_fill_time_only at h
  split at h <;> cases h <;>
    (unfold sqlIsCalFill calFillBody
     simp only [String.data_append, List.append_assoc]
     exact isPrefixList_of_append _ _ _ (by decide))

theorem sqlIsCalFill_SELECT (x : String) : sqlIsCalFill ("SELECT " ++ x) = false := by
  apply sqlIsCalFill_of_head
  rw [show ("SELECT " ++ x).data = 'S' :: ("ELECT " ++ x).data from rfl]
  simp

theorem data_ne_nil_SELECT (x : String) : ("SELECT " ++ x).data ≠ [] := by
  rw [show ("SELECT " ++ x).data = 'S' :: ("ELECT " ++ x).data from rfl]
  simp

theorem calFill_data_ne (s : String) (h : sqlIsCalFill s = true) : s.data ≠ [] := by
  intro hd
  unfold sqlIsCalFill at h
  rw [hd] at h
  exact absurd h (by decide)

theorem dim_block_shape (dim gc : String) (inc : Bool)
    (pe : Option (String × String × String × String)) (sm fw lc : String)
    (pp dp : List Param) :
    ∃ x, (dim_block dim gc inc pe sm fw lc pp dp).1 = "SELECT " ++ x := by
  unfold dim_block
  rcases pe with _ | ⟨l, g, o, a⟩
  · exact ⟨_, by simp only [String.append_assoc]; rfl⟩
  · cases inc
    · exact ⟨_, by simp only [String.append_assoc]; rfl⟩
    · exact ⟨_, by simp only [String.append_assoc]; rfl⟩

theorem build_shape (db : DbType) (q : String) (tokens : List String) (agg wc : String) :
    (build_join_sql db q tokens agg wc).1.data ≠ [] ∧
    (sqlIsCalFill (build_join_sql db q tokens agg wc).1 = true →
      tokens_contain tokens ["customer", "customers"] = false ∧
      tokens_contain tokens ["product", "products"] = false ∧
      tokens_contain tokens ["category", "categories"] = false ∧
      (resolved_bucket db tokens q = some "month" ∨
       resolved_bucket db tokens q = some "quarter" ∨
       resolved_bucket db tokens q = some "year") ∧
      single_year_of db q ≠ none) := by
  rcases hepf : extract_period_filters db q with ⟨pparts, pparams, ib, sy⟩
  have hrb : resolved_bucket db tokens q =
      (if ((extract_time_bucket tokens q).isNone && ib.isSome) = true then ib
       else extract_time_bucket tokens q) := by
    unfold resolved_bucket
    rw [hepf]
  have hsy : single_year_of db q = sy := by
    unfold single_year_of
    rw [hepf]
  simp only [build_join_sql, hepf]
  by_cases hd1 : tokens_contain tokens ["customer", "customers"] = true
  · rw [if_pos hd1]
    obtain ⟨x, hx⟩ := dim_block_shape "customers.customer_name AS dimension"
      "customers.customer_name" _ _ _ _ _ pparams _
    rw [hx]
    simp [sqlIsCalFill_SELECT, data_ne_nil_SELECT]
  rw [if_neg hd1]
  by_cases hd2 : tokens_contain tokens ["product", "products"] = true
  · rw [if_pos hd2]
    obtain ⟨x, hx⟩ := dim_block_shape "products.product_name AS dimension"
      "products.product_name" _ _ _ _ _ pparams _
    rw [hx]
    simp [sqlIsCalFill_SELECT, data_ne_nil_SELECT]
  rw [if_neg hd2]
  by_cases hd3 : tokens_contain tokens ["category", "categories"] = true
  · rw [if_pos hd3]
    obtain ⟨x, hx⟩ := dim_block_shape "products.category AS dimension"
      "products.category" _ _ _ _ _ pparams _
    rw [hx]
    simp [sqlIsCalFill_SELECT, data_ne_nil_SELECT]
  rw [if_neg hd3]
  split
  · rename_i l g o a heqpe
    cases sy with
    | none =>
      dsimp only
      constructor
      · simp only [String.append_assoc]
        exact data_ne_nil_SELECT _
      · intro hcf
        simp only [String.append_assoc] at hcf
        rw [sqlIsCalFill_SELECT] at hcf
        cases hcf
    | some y =>
      dsimp only
      split
      · rename_i sqlf hcf0
        rcases ite_eq_iff.mp hcf0 with ⟨hc, hcf2⟩ | ⟨hc, hcf2⟩
        · dsimp only
          constructor
          · exact calFill_data_ne sqlf (calFill_isCalFill db _ y l _ _ g sqlf hcf2)
          · intro _
            have hguard := hc
            simp only [Bool.and_eq_true, Bool.or_eq_true, decide_eq_true_eq] at hguard
            refine ⟨by simpa using hd1, by simpa using hd2, by simpa using hd3, ?_, ?_⟩
            · rw [hrb]
              simp only [Bool.and_eq_true]
              tauto
            · rw [hsy]
              simp
        · cases hcf2
      · dsimp only
        constructor
        · simp only [String.append_assoc]
          exact data_ne_nil_SELECT _
        · intro hcf
          simp only [String.append_assoc] at hcf
          rw [sqlIsCalFill_SELECT] at hcf
          cases hcf
  · rename_i heqpe
    dsimp only
    constructor
    · simp only [String.append_assoc]
      exact data_ne_nil_SELECT _
    · intro hcf
      simp only [String.append_assoc] at hcf
      rw [sqlIsCalFill_SELECT] at hcf
      cases hcf

/-! Claims. -/

/-- C1 (amended): for every question string and either dialect, the number of
placeholder tokens in the generated SQL text, counted outside single-quoted string
literals, equals the length of the returned parameter list — provided the value
captured by the where-clause regex, when one matches, contains no single-quote
character.  (As stated without that proviso the claim fails: a quote inside the
matched value desynchronises the quoting of the rendered text; see the
counterexample.)  Parameters bind to placeholders positionally, so the count
equality is the 1:1 left-to-right correspondence. -/
theorem c1_placeholder_parity (db : DbType) (ok : Bool) (q : String)
    (hval : ∀ col op val, whereParsed q = some (col, op, val) → sqc ∉ val.data) :
    countPlaceholders db (translate_question_to_sql db ok q).1 =
      (translate_question_to_sql db ok q).2.1.length :=
  translate_parity db ok q fun col op val hw _c hc he => hval col op val hw (he ▸ hc)

/-- Witness for C1 at a concrete question and dialect. -/
theorem c1_placeholder_parity_witness :
    countPlaceholders DbType.sqlite
      (translate_question_to_sql DbType.sqlite false "total sales by month in 2023").1 =
    (translate_question_to_sql DbType.sqlite false "total sales by month in 2023").2.1.length :=
  c1_placeholder_parity DbType.sqlite false "total sales by month in 2023" (by
    intro col op val hw
    rw [show whereParsed "total sales by month in 2023" = none from by decide] at hw
    cases hw)

/-- Counterexample to C1 as stated: for the question `sales where x = a'?` the
where-clause value captures `a'?`; the rendered text `WHERE x = 'a'?'` then has one
`?` outside string literals while the parameter list is empty. -/
theorem c1_placeholder_parity_counterexample :
    countPlaceholders DbType.sqlite
      (translate_question_to_sql DbType.sqlite false "sales where x = a\x27?").1 = 1 ∧
    (translate_question_to_sql DbType.sqlite false "sales where x = a\x27?").2.1.length = 0 := by
  constructor <;> decide

/-- C5: the calendar-fill query shape is produced only when no dimension keyword is
present, the resolved bucket is month, quarter or year, and a single pinning year was
extracted; every plan with a customer, product or category dimension is rendered
without calendar fill. -/
theorem c5_calendar_fill_only_time_only (db : DbType) (ok : Bool) (q : String) :
    (sqlIsCalFill (translate_question_to_sql db ok q).1 = true →
      tokens_contain (tokenize_and_tag ok q).1 ["customer", "customers"] = false ∧
      tokens_contain (tokenize_and_tag ok q).1 ["product", "products"] = false ∧
      tokens_contain (tokenize_and_tag ok q).1 ["category", "categories"] = false ∧
      (resolved_bucket db (tokenize_and_tag ok q).1 q = some "month" ∨
       resolved_bucket db (tokenize_and_tag ok q).1 q = some "quarter" ∨
       resolved_bucket db (tokenize_and_tag ok q).1 q = some "year") ∧
      single_year_of db q ≠ none) ∧
    ((tokens_contain (tokenize_and_tag ok q).1 ["customer", "customers"] = true ∨
      tokens_contain (tokenize_and_tag ok q).1 ["product", "products"] = true ∨
      tokens_contain (tokenize_and_tag ok q).1 ["category", "categories"] = true) →
      sqlIsCalFill (translate_question_to_sql db ok q).1 = false) := by
  have hb := (build_shape db q (tokenize_and_tag ok q).1
    ((((tokenize_and_tag ok q).1).findSome? aggLookup).getD "SUM") (where_clause_of q)).2
  have heq : (translate_question_to_sql db ok q).1 =
      (build_join_sql db q (tokenize_and_tag ok q).1
        ((((tokenize_and_tag ok q).1).findSome? aggLookup).getD "SUM") (where_clause_of q)).1 :=
    rfl
  rw [heq]
  refine ⟨hb, ?_⟩
  intro hdim
  by_contra hcf
  rw [Bool.not_eq_false] at hcf
  obtain ⟨h1, h2, h3, _, _⟩ := hb hcf
  rcases hdim with h | h | h <;> simp_all

/-- Witness for C5 at the month calendar-fill sample question. -/
theorem c5_calendar_fill_witness :
    tokens_contain (tokenize_and_tag true "total sales by month in 2023").1
      ["customer", "customers"] = false ∧
    tokens_contain (tokenize_and_tag true "total sales by month in 2023").1
      ["product", "products"] = false ∧
    tokens_contain (tokenize_and_tag true "total sales by month in 2023").1
      ["category", "categories"] = false ∧
    (resolved_bucket DbType.sqlite (tokenize_and_tag true "total sales by month in 2023").1
        "total sales by month in 2023" = some "month" ∨
     resolved_bucket DbType.sqlite (tokenize_and_tag true "total sales by month in 2023").1
        "total sales by month in 2023" = some "quarter" ∨
     resolved_bucket DbType.sqlite (tokenize_and_tag true "total sales by month in 2023").1
        "total sales by month in 2023" = some "year") ∧
    single_year_of DbType.sqlite "total sales by month in 2023" ≠ none :=
  (c5_calendar_fill_only_time_only DbType.sqlite true "total sales by month in 2023").1
    (by decide)

theorem groupby_free_total (sm : String)
    (hsm : sm = "COUNT(DISTINCT orders.order_id) AS value" ∨
           sm = "COUNT(DISTINCT customers.customer_id) AS value" ∨
           sm = "SUM(line_total) AS value" ∨ sm = "AVG(line_total) AS value" ∨
           sm = "COUNT(line_total) AS value" ∨ sm = "MAX(line_total) AS value" ∨
           sm = "MIN(line_total) AS value") :
    strContains ("SELECT " ++ sm ++ "\n" ++ base_joins ++ "LIMIT 1;") "GROUP BY" = false := by
  rcases hsm with h | h | h | h | h | h | h <;> subst h <;> decide

theorem select_measure_cases (qt : String) (tokens : List String) (agg : String)
    (hagg : agg = "SUM" ∨ agg = "AVG" ∨ agg = "COUNT" ∨ agg = "MAX" ∨ agg = "MIN") :
    select_measure qt tokens agg = "COUNT(DISTINCT orders.order_id) AS value" ∨
    select_measure qt tokens agg = "COUNT(DISTINCT customers.customer_id) AS value" ∨
    select_measure qt tokens agg = "SUM(line_total) AS value" ∨
    select_measure qt tokens agg = "AVG(line_total) AS value" ∨
    select_measure qt tokens agg = "COUNT(line_total) AS value" ∨
    select_measure qt tokens agg = "MAX(line_total) AS value" ∨
    select_measure qt tokens agg = "MIN(line_total) AS value" := by
  unfold select_measure
  split_ifs
  · tauto
  · tauto
  · rcases hagg with h | h | h | h | h <;> subst h <;> simp

/-- C2: translation always yields a non-empty SQL statement and never takes the
error branch; and when no dimension keyword, no time bucket, no period filter, no
explicit date range and no where clause are recognised, the result is the bare
single-row total query ending in `LIMIT 1;`, with an empty parameter list and no
`GROUP BY`. -/
theorem c2_total_fallback (db : DbType) (ok : Bool) (q : String) :
    ((translate_question_to_sql db ok q).1 ≠ "" ∧
     (translate_question_to_sql db ok q).2.2 = none) ∧
    (tokens_contain (tokenize_and_tag ok q).1 ["customer", "customers"] = false →
     tokens_contain (tokenize_and_tag ok q).1 ["product", "products"] = false →
     tokens_contain (tokenize_and_tag ok q).1 ["category", "categories"] = false →
     extract_time_bucket (tokenize_and_tag ok q).1 q = none →
     extract_period_filters db q = ([], [], none, none) →
     searchAnywhere tryDateBetweenAt (pyLower q).data = none →
     whereParsed q = none →
     (translate_question_to_sql db ok q).1 =
       "SELECT " ++ select_measure q (tokenize_and_tag ok q).1
         ((((tokenize_and_tag ok q).1).findSome? aggLookup).getD "SUM") ++ "\n"
         ++ base_joins ++ "LIMIT 1;" ∧
     (translate_question_to_sql db ok q).2.1 = [] ∧
     strContains (translate_question_to_sql db ok q).1 "GROUP BY" = false) := by
  have hne := (build_shape db q (tokenize_and_tag ok q).1
    ((((tokenize_and_tag ok q).1).findSome? aggLookup).getD "SUM") (where_clause_of q)).1
  have heq1 : (translate_question_to_sql db ok q).1 =
      (build_join_sql db q (tokenize_and_tag ok q).1
        ((((tokenize_and_tag ok q).1).findSome? aggLookup).getD "SUM") (where_clause_of q)).1 :=
    rfl
  have hsne : (translate_question_to_sql db ok q).1 ≠ "" := by
    rw [heq1]
    intro h
    exact hne (by rw [h])
  have herr : (translate_question_to_sql db ok q).2.2 = none := by
    have h2 : (translate_question_to_sql db ok q).2.2 =
        if (build_join_sql db q (tokenize_and_tag ok q).1
              ((((tokenize_and_tag ok q).1).findSome? aggLookup).getD "SUM")
              (where_clause_of q)).1 = ""
        then some "Couldn\x27t translate question." else none := rfl
    rw [h2, if_neg]
    rw [heq1] at hsne
    exact hsne
  refine ⟨⟨hsne, herr⟩, ?_⟩
  intro hc hp hcat hb hepf hdbm hw
  have hwc : where_clause_of q = "" := by
    unfold where_clause_of
    rw [hw]
  have hbuild : build_join_sql db q (tokenize_and_tag ok q).1
      ((((tokenize_and_tag ok q).1).findSome? aggLookup).getD "SUM") (where_clause_of q) =
      ("SELECT " ++ select_measure q (tokenize_and_tag ok q).1
         ((((tokenize_and_tag ok q).1).findSome? aggLookup).getD "SUM") ++ "\n"
         ++ base_joins ++ "LIMIT 1;", []) := by
    rw [hwc]
    simp [build_join_sql, hepf, hb, hdbm, hc, hp, hcat, period_expressions]
  have hs1 : (translate_question_to_sql db ok q).1 =
      "SELECT " ++ select_measure q (tokenize_and_tag ok q).1
        ((((tokenize_and_tag ok q).1).findSome? aggLookup).getD "SUM") ++ "\n"
        ++ base_joins ++ "LIMIT 1;" := by
    rw [heq1, hbuild]
  have heq2 : (translate_question_to_sql db ok q).2.1 =
      (build_join_sql db q (tokenize_and_tag ok q).1
        ((((tokenize_and_tag ok q).1).findSome? aggLookup).getD "SUM") (where_clause_of q)).2 :=
    rfl
  refine ⟨hs1, by rw [heq2, hbuild], ?_⟩
  rw [hs1]
  exact groupby_free_total _ (select_measure_cases q (tokenize_and_tag ok q).1 _
    (aggOf_mem (tokenize_and_tag ok q).1))

/-- Witness for C2 at a concrete question hitting the bare-total fallback. -/
theorem c2_total_fallback_witness :
    ((translate_question_to_sql DbType.sqlite true "show me the revenue").1 ≠ "" ∧
     (translate_question_to_sql DbType.sqlite true "show me the revenue").2.2 = none) ∧
    ((translate_question_to_sql DbType.sqlite true "show me the revenue").1 =
       "SELECT " ++ select_measure "show me the revenue"
         (tokenize_and_tag true "show me the revenue").1
         ((((tokenize_and_tag true "show me the revenue").1).findSome? aggLookup).getD "SUM")
         ++ "\n" ++ base_joins ++ "LIMIT 1;" ∧
     (translate_question_to_sql DbType.sqlite true "show me the revenue").2.1 = [] ∧
     strContains (translate_question_to_sql DbType.sqlite true "show me the revenue").1
       "GROUP BY" = false) :=
  ⟨(c2_total_fallback DbType.sqlite true "show me the revenue").1,
   (c2_total_fallback DbType.sqlite true "show me the revenue").2 (by decide) (by decide)
     (by decide) (by decide) (by decide) (by decide) (by decide)⟩

/-! Cross-call state.  The source stores mutable process state in module globals:
the dialect flag and the NLTK resource cache.  `NlpEnv` models that state; a
translation call reads it and leaves it unchanged (the translation path writes no
global). -/

structure NlpEnv where
  db : DbType
  resourcesOk : Bool
deriving DecidableEq

/-- One translation call as a state transformer over the process state. -/
def translateS (env : NlpEnv) (q : String) :
    (String × List Param × Option String) × NlpEnv :=
  (translate_question_to_sql env.db env.resourcesOk q, env)

/-- C7: translation is deterministic — running the same question twice through the
stateful pipeline yields identical (sql, parameters, error) triples, because a call
leaves the process state unchanged. -/
theorem c7_determinism (env : NlpEnv) (q : String) :
    (translateS env q).1 = (translateS (translateS env q).2 q).1 ∧
    (translateS env q).2 = env :=
  ⟨rfl, rfl⟩

/-- C3: for "sales in Q4 2025" the period filter is one BETWEEN fragment with
parameters ["2025-10-01", "2025-12-31"], the resolved bucket is quarter, and the
generated dimension-less statement is the calendar fill enumerating
"2025-Q1".."2025-Q4" in that order. -/
theorem c3_q4_2025_quarter_derivation :
    (extract_period_filters DbType.sqlite "sales in Q4 2025").1 =
      [between_condition DbType.sqlite] ∧
    (extract_period_filters DbType.sqlite "sales in Q4 2025").2.1 =
      [Param.pstr "2025-10-01", Param.pstr "2025-12-31"] ∧
    resolved_bucket DbType.sqlite (tokenize_and_tag true "sales in Q4 2025").1
      "sales in Q4 2025" = some "quarter" ∧
    sqlIsCalFill (translate_question_to_sql DbType.sqlite true "sales in Q4 2025").1 = true ∧
    strContains (translate_question_to_sql DbType.sqlite true "sales in Q4 2025").1
      "WITH cal(period, ord) AS (VALUES (\x272025-Q1\x27, 1), (\x272025-Q2\x27, 2), (\x272025-Q3\x27, 3), (\x272025-Q4\x27, 4))" = true ∧
    (translate_question_to_sql DbType.sqlite true "sales in Q4 2025").2.1 =
      [Param.pstr "2025-10-01", Param.pstr "2025-12-31"] := by
  refine ⟨?_, ?_, ?_, ?_, ?_, ?_⟩ <;> decide

/-- The calendar defined by the month calendar-fill template: twelve
(period, ordinal) rows.  `cal_rows_month` of the source renders exactly these rows. -/
def calList (y : Nat) : List (String × Nat) :=
  (List.range 12).map fun i => (natStr y ++ "-" ++ padZeros 2 (i + 1), i + 1)

/-- Modelled from the spec: the executed result of the calendar-fill statement.
`FROM cal LEFT JOIN agg ON agg.period = cal.period ORDER BY cal.ord` with
`COALESCE(agg.value, 0)` yields, for each calendar row in ordinal order, the
aggregate value of its period, defaulting to 0 when the aggregate has no row. -/
def calFillResult (y : Nat) (aggRes : String → Option Int) : List (String × Int) :=
  (calList y).map fun pr => (pr.1, (aggRes pr.1).getD 0)


theorem calFillResult_periods (y : Nat) (aggRes : String → Option Int) :
    (calFillResult y aggRes).map Prod.fst = (calList y).map Prod.fst := by
  simp [calFillResult, List.map_map, Function.comp]

/-- C4: the statement generated for "total sales by month in 2023" defines a
calendar of exactly the 12 rows ("2023-01", 1) .. ("2023-12", 12), renders the
left-join/COALESCE/ORDER-BY-ordinal tail, and under the modelled execution
semantics its result has exactly one row per month in calendar order, with value
0 for months the aggregate has no data for. -/
theorem c4_calendar_fill_completeness :
    isPrefixList ("WITH cal(period, ord) AS (VALUES (\x272023-01\x27, 1), (\x272023-02\x27, 2), (\x272023-03\x27, 3), (\x272023-04\x27, 4), (\x272023-05\x27, 5), (\x272023-06\x27, 6), (\x272023-07\x27, 7), (\x272023-08\x27, 8), (\x272023-09\x27, 9), (\x272023-10\x27, 10), (\x272023-11\x27, 11), (\x272023-12\x27, 12)),").data
      (translate_question_to_sql DbType.sqlite true "total sales by month in 2023").1.data
      = true ∧
    strContains (translate_question_to_sql DbType.sqlite true "total sales by month in 2023").1
      "SELECT cal.period, COALESCE(agg.value, 0) AS value\nFROM cal\nLEFT JOIN agg ON agg.period = cal.period\nORDER BY cal.ord;" = true ∧
    cal_rows_month 2023 =
      pyJoin ", " ((calList 2023).map fun pr =>
        "(\x27" ++ pr.1 ++ "\x27, " ++ natStr pr.2 ++ ")") ∧
    (calList 2023).map Prod.fst =
      ["2023-01", "2023-02", "2023-03", "2023-04", "2023-05", "2023-06",
       "2023-07", "2023-08", "2023-09", "2023-10", "2023-11", "2023-12"] ∧
    (∀ aggRes : String → Option Int,
      (calFillResult 2023 aggRes).length = 12 ∧
      (calFillResult 2023 aggRes).map Prod.fst =
        ["2023-01", "2023-02", "2023-03", "2023-04", "2023-05", "2023-06",
         "2023-07", "2023-08", "2023-09", "2023-10", "2023-11", "2023-12"]) ∧
    calFillResult 2023 (fun p => if p = "2023-03" then some 7 else none) =
      [("2023-01", 0), ("2023-02", 0), ("2023-03", 7), ("2023-04", 0), ("2023-05", 0),
       ("2023-06", 0), ("2023-07", 0), ("2023-08", 0), ("2023-09", 0), ("2023-10", 0),
       ("2023-11", 0), ("2023-12", 0)] := by
  refine ⟨by decide, by decide, by decide, by decide, ?_, by decide⟩
  intro aggRes
  rw [calFillResult_periods]
  constructor
  · simp [calFillResult, calList]
  · decide

/-- C10: for "total sales by day where date between 2025-10-20 and 2025-10-25" the
plain-year rule matches the year digits inside the date literal, so the period
filter contributes an equality-on-year fragment with parameter 2025, and the
rendered WHERE clause carries that fragment followed by the BETWEEN fragment whose
parameters are the two literal dates, in that order. -/
theorem c10_year_matches_inside_date_literal :
    (extract_period_filters DbType.sqlite
        "total sales by day where date between 2025-10-20 and 2025-10-25").1 =
      [year_condition DbType.sqlite] ∧
    (extract_period_filters DbType.sqlite
        "total sales by day where date between 2025-10-20 and 2025-10-25").2.1 =
      [Param.pint 2025] ∧
    (translate_question_to_sql DbType.sqlite true
        "total sales by day where date between 2025-10-20 and 2025-10-25").2.1 =
      [Param.pint 2025, Param.pstr "2025-10-20", Param.pstr "2025-10-25"] ∧
    strContains (translate_question_to_sql DbType.sqlite true
        "total sales by day where date between 2025-10-20 and 2025-10-25").1
      ("WHERE " ++ year_condition DbType.sqlite ++ " AND "
        ++ between_condition DbType.sqlite) = true := by
  refine ⟨?_, ?_, ?_, ?_⟩ <;> decide

/-- C6 (amended): for every question whose lowered text contains a month name
immediately followed by a year — and in which no quarter-year expression also
matches — `extract_period_filters` emits exactly one BETWEEN fragment whose two
parameters are the first day of that month and its last calendar day (leap-aware
via `monthLastDay`), with inferred bucket day and single_year that year.  (As
stated, without excluding a quarter-year co-match, the claim fails: a question
matching both rules gets two BETWEEN fragments, four parameters and the quarter's
year as single_year; see the counterexample.) -/
theorem c6_month_year_rule (db : DbType) (q : String) (mon yr : Nat)
    (hmy : searchWB tryMonthYearAt (pyLower q).data false = some (mon, yr))
    (hqy : qySearch (pyLower q).data = none) :
    extract_period_filters db q =
      ([between_condition db],
       [Param.pstr (dateStr yr mon 1), Param.pstr (dateStr yr mon (monthLastDay yr mon))],
       some "day", some yr) := by
  unfold extract_period_filters
  dsimp only
  rw [hmy, hqy]
  unfold epfCore
  simp [between_contains_BETWEEN db]

/-- Witness for C6 at "february 2024": the leap-year February range. -/
theorem c6_month_year_rule_witness :
    extract_period_filters DbType.sqlite "february 2024" =
      ([between_condition DbType.sqlite],
       [Param.pstr "2024-02-01", Param.pstr "2024-02-29"], some "day", some 2024) := by
  rw [c6_month_year_rule DbType.sqlite "february 2024" 2 2024 (by decide) (by decide)]
  rfl

/-- Counterexample to C6 as stated: "january 2025 first quarter of 2024" contains
the month-year expression "january 2025", yet the extraction also fires the
quarter-year rule, yielding four parameters and single_year 2024, not the
month-year output. -/
theorem c6_month_year_rule_counterexample :
    searchWB tryMonthYearAt (pyLower "january 2025 first quarter of 2024").data false =
      some (1, 2025) ∧
    (extract_period_filters DbType.sqlite "january 2025 first quarter of 2024").2.1.length
      = 4 ∧
    (extract_period_filters DbType.sqlite "january 2025 first quarter of 2024").2.2.2 =
      some 2024 := by
  refine ⟨?_, ?_, ?_⟩ <;> decide

/-! Substring lemmas for the where-clause inlining claim. -/

theorem isPrefixList_self_append : ∀ (p t : List Char), isPrefixList p (p ++ t) = true := by
  intro p
  induction p with
  | nil => intro t; rfl
  | cons c cs ih =>
    intro t
    rw [List.cons_append]
    show (c = c && isPrefixList cs (cs ++ t)) = true
    rw [ih t]
    simp

theorem lcs_pref (p t : List Char) : listContainsSub p (p ++ t) = true := by
  cases hp : p ++ t with
  | nil =>
    have hpn : p = [] := (List.append_eq_nil.mp hp).1
    subst hpn
    rfl
  | cons c r =>
    show (isPrefixList p (c :: r) || listContainsSub p r) = true
    rw [← hp, isPrefixList_self_append]
    rfl

theorem lcs_mono_left (p a s : List Char) (h : listContainsSub p s = true) :
    listContainsSub p (a ++ s) = true := by
  induction a with
  | nil => exact h
  | cons c cs ih =>
    rw [List.cons_append]
    show (isPrefixList p (c :: (cs ++ s)) || listContainsSub p (cs ++ s)) = true
    rw [ih]
    simp

theorem lcs_mono_right (p s b : List Char) (h : listContainsSub p s = true) :
    listContainsSub p (s ++ b) = true := by
  induction s with
  | nil =>
    cases p with
    | nil => exact lcs_pref [] b
    | cons c cs => cases h
  | cons c r ih =>
    have h2 : (isPrefixList p (c :: r) || listContainsSub p r) = true := h
    rw [List.cons_append]
    show (isPrefixList p (c :: (r ++ b)) || listContainsSub p (r ++ b)) = true
    rw [Bool.or_eq_true] at h2 ⊢
    rcases h2 with h2 | h2
    · left
      have h3 := isPrefixList_of_append p (c :: r) b h2
      rw [List.cons_append] at h3
      exact h3
    · right
      exact ih h2

theorem strContains_factor (s pre mid post : String) (h : s = pre ++ (mid ++ post)) :
    strContains s mid = true := by
  subst h
  unfold strContains
  simp only [String.data_append]
  exact lcs_mono_left _ _ _ (lcs_pref _ _)

theorem pyJoin_head (sep x : String) (rest : List String) :
    ∃ t, pyJoin sep (x :: rest) = x ++ t := by
  cases rest with
  | nil =>
    refine ⟨"", ?_⟩
    apply String.ext
    show x.data = (x ++ "").data
    simp [String.data_append]
  | cons y ys =>
    refine ⟨sep ++ pyJoin sep (y :: ys), ?_⟩
    show x ++ sep ++ pyJoin sep (y :: ys) = _
    rw [String.append_assoc]

/-- The explicit date-range parameters of `build_join_sql`. -/
def dparamsOf (q : String) : List Param :=
  match searchAnywhere tryDateBetweenAt (pyLower q).data with
  | some (d1, d2) => [Param.pstr d1, Param.pstr d2]
  | none => []

theorem dim_block_params (dim gc : String) (ip : Bool)
    (pe : Option (String × String × String × String)) (sm fw lc : String)
    (pp dp : List Param) :
    (dim_block dim gc ip pe sm fw lc pp dp).2 = pp ++ dp := by
  unfold dim_block
  rcases pe with _ | ⟨lbl, grp, ordk, alia⟩ <;> cases ip <;> rfl

theorem build_params (db : DbType) (q : String) (tokens : List String) (agg wc : String) :
    (build_join_sql db q tokens agg wc).2 =
      (extract_period_filters db q).2.1 ++ dparamsOf q := by
  rcases hepf : extract_period_filters db q with ⟨pparts, pparams, ib, sy⟩
  simp only [build_join_sql, dparamsOf, hepf]
  rcases hdbm : searchAnywhere tryDateBetweenAt (pyLower q).data with _ | ⟨d1, d2⟩ <;>
    dsimp only
  · by_cases hd1 : tokens_contain tokens ["customer", "customers"] = true
    · rw [if_pos hd1]
      exact dim_block_params _ _ _ _ _ _ _ _ _
    rw [if_neg hd1]
    by_cases hd2 : tokens_contain tokens ["product", "products"] = true
    · rw [if_pos hd2]
      exact dim_block_params _ _ _ _ _ _ _ _ _
    rw [if_neg hd2]
    by_cases hd3 : tokens_contain tokens ["category", "categories"] = true
    · rw [if_pos hd3]
      exact dim_block_params _ _ _ _ _ _ _ _ _
    rw [if_neg hd3]
    split
    · rename_i l g o a heqpe
      cases sy with
      | none => rfl
      | some y =>
        dsimp only
        split
        · rfl
        · rfl
    · rfl
  · by_cases hd1 : tokens_contain tokens ["customer", "customers"] = true
    · rw [if_pos hd1]
      exact dim_block_params _ _ _ _ _ _ _ _ _
    rw [if_neg hd1]
    by_cases hd2 : tokens_contain tokens ["product", "products"] = true
    · rw [if_pos hd2]
      exact dim_block_params _ _ _ _ _ _ _ _ _
    rw [if_neg hd2]
    by_cases hd3 : tokens_contain tokens ["category", "categories"] = true
    · rw [if_pos hd3]
      exact dim_block_params _ _ _ _ _ _ _ _ _
    rw [if_neg hd3]
    split
    · rename_i l g o a heqpe
      cases sy with
      | none => rfl
      | some y =>
        dsimp only
        split
        · rfl
        · rfl
    · rfl

theorem dim_block_contains (p dim gc : String) (ip : Bool)
    (pe : Option (String × String × String × String)) (sm fw lc : String)
    (pp dp : List Param) (h : listContainsSub p.data fw.data = true) :
    strContains (dim_block dim gc ip pe sm fw lc pp dp).1 p = true := by
  unfold dim_block
  rcases pe with _ | ⟨lbl, grp, ordk, alia⟩ <;> cases ip <;>
    dsimp only <;>
    · unfold strContains
      simp only [String.data_append, List.append_assoc]
      repeat first | exact lcs_mono_right _ _ _ h | apply lcs_mono_left

theorem calFillBody_contains (p calHead lbl sm joins fw grp : String)
    (h : listContainsSub p.data fw.data = true) :
    strContains (calFillBody calHead lbl sm joins fw grp) p = true := by
  unfold calFillBody strContains
  simp only [String.data_append, List.append_assoc]
  repeat first | exact lcs_mono_right _ _ _ h | apply lcs_mono_left

theorem wcf_contains (p : String) (db : DbType) (bucket : Option String) (y : Nat)
    (lbl sm fw grp s : String)
    (hs : with_calendar_fill_time_only db bucket y lbl sm fw grp = some s)
    (h : listContainsSub p.data fw.data = true) :
    strContains s p = true := by
  unfold with_calendar_fill_time_only at hs
  dsimp only at hs
  split at hs <;>
    first
      | exact Option.noConfusion hs
      | (injection hs with hs; subst hs; exact calFillBody_contains p _ _ _ _ _ _ h)

theorem build_where_contains (db : DbType) (q : String) (tokens : List String) (agg : String)
    (frag : String)
    (hwl : (if where_clause_of q ≠ "" then [pyStrip ⟨replaceWHERE (where_clause_of q).data⟩]
      else []) = [frag]) :
    strContains (build_join_sql db q tokens agg (where_clause_of q)).1 frag = true := by
  rcases hepf : extract_period_filters db q with ⟨pparts, pparams, ib, sy⟩
  simp only [build_join_sql, hepf, hwl]
  rcases hdbm : searchAnywhere tryDateBetweenAt (pyLower q).data with _ | ⟨d1, d2⟩ <;>
    dsimp only
  · generalize hParts : [frag] ++ pparts ++ ([] : List String) = parts
    obtain ⟨rest, hrest⟩ : ∃ r, parts = frag :: r := ⟨pparts ++ [], by rw [← hParts]; simp⟩
    subst hrest
    rw [if_pos (List.cons_ne_nil frag rest)]
    have hfw : listContainsSub frag.data
        ("WHERE " ++ pyJoin " AND " (frag :: rest) ++ "\n").data = true := by
      obtain ⟨t, ht⟩ := pyJoin_head " AND " frag rest
      rw [ht]
      simp only [String.data_append, List.append_assoc]
      exact lcs_mono_left _ _ _ (lcs_pref _ _)
    have hfwJ : listContainsSub frag.data (pyJoin " AND " (frag :: rest)).data = true := by
      obtain ⟨t2, ht2⟩ := pyJoin_head " AND " frag rest
      rw [ht2]
      simp only [String.data_append]
      exact lcs_pref _ _
    by_cases hd1 : tokens_contain tokens ["customer", "customers"] = true
    · rw [if_pos hd1]
      exact dim_block_contains _ _ _ _ _ _ _ _ _ _ hfw
    rw [if_neg hd1]
    by_cases hd2 : tokens_contain tokens ["product", "products"] = true
    · rw [if_pos hd2]
      exact dim_block_contains _ _ _ _ _ _ _ _ _ _ hfw
    rw [if_neg hd2]
    by_cases hd3 : tokens_contain tokens ["category", "categories"] = true
    · rw [if_pos hd3]
      exact dim_block_contains _ _ _ _ _ _ _ _ _ _ hfw
    rw [if_neg hd3]
    split
    · rename_i l g o a heqpe
      cases sy with
      | none =>
        dsimp only
        unfold strContains
        simp only [String.data_append, List.append_assoc]
        repeat first | exact lcs_mono_right _ _ _ hfwJ | apply lcs_mono_left
      | some y =>
        dsimp only
        split
        · rename_i sqlf hcf
          rcases ite_eq_iff.mp hcf with ⟨hc, hcf2⟩ | ⟨hc, hcf2⟩
          · exact wcf_contains frag _ _ _ _ _ _ _ _ hcf2 hfw
          · exact Option.noConfusion hcf2
        · dsimp only
          unfold strContains
          simp only [String.data_append, List.append_assoc]
          repeat first | exact lcs_mono_right _ _ _ hfwJ | apply lcs_mono_left
    · dsimp only
      unfold strContains
      simp only [String.data_append, List.append_assoc]
      repeat first | exact lcs_mono_right _ _ _ hfwJ | apply lcs_mono_left
  · generalize hParts : [frag] ++ pparts ++ [between_condition db] = parts
    obtain ⟨rest, hrest⟩ : ∃ r, parts = frag :: r :=
      ⟨pparts ++ [between_condition db], by rw [← hParts]; simp⟩
    subst hrest
    rw [if_pos (List.cons_ne_nil frag rest)]
    have hfw : listContainsSub frag.data
        ("WHERE " ++ pyJoin " AND " (frag :: rest) ++ "\n").data = true := by
      obtain ⟨t, ht⟩ := pyJoin_head " AND " frag rest
      rw [ht]
      simp only [String.data_append, List.append_assoc]
      exact lcs_mono_left _ _ _ (lcs_pref _ _)
    have hfwJ : listContainsSub frag.data (pyJoin " AND " (frag :: rest)).data = true := by
      obtain ⟨t2, ht2⟩ := pyJoin_head " AND " frag rest
      rw [ht2]
      simp only [String.data_append]
      exact lcs_pref _ _
    by_cases hd1 : tokens_contain tokens ["customer", "customers"] = true
    · rw [if_pos hd1]
      exact dim_block_contains _ _ _ _ _ _ _ _ _ _ hfw
    rw [if_neg hd1]
    by_cases hd2 : tokens_contain tokens ["product", "products"] = true
    · rw [if_pos hd2]
      exact dim_block_contains _ _ _ _ _ _ _ _ _ _ hfw
    rw [if_neg hd2]
    by_cases hd3 : tokens_contain tokens ["category", "categories"] = true
    · rw [if_pos hd3]
      exact dim_block_contains _ _ _ _ _ _ _ _ _ _ hfw
    rw [if_neg hd3]
    split
    · rename_i l g o a heqpe
      cases sy with
      | none =>
        dsimp only
        unfold strContains
        simp only [String.data_append, List.append_assoc]
        repeat first | exact lcs_mono_right _ _ _ hfwJ | apply lcs_mono_left
      | some y =>
        dsimp only
        split
        · rename_i sqlf hcf
          rcases ite_eq_iff.mp hcf with ⟨hc, hcf2⟩ | ⟨hc, hcf2⟩
          · exact wcf_contains frag _ _ _ _ _ _ _ _ hcf2 hfw
          · exact Option.noConfusion hcf2
        · dsimp only
          unfold strContains
          simp only [String.data_append, List.append_assoc]
          repeat first | exact lcs_mono_right _ _ _ hfwJ | apply lcs_mono_left
    · dsimp only
      unfold strContains
      simp only [String.data_append, List.append_assoc]
      repeat first | exact lcs_mono_right _ _ _ hfwJ | apply lcs_mono_left

/-- C9: when the "where" tail of a question matches the clause regex, the captured
comparison value is embedded into the rendered SQL text as a quoted string literal
(the fragment `col op 'val'` occurs verbatim in the statement), and the parameter
list carries no entry for it: it is exactly the period-filter parameters followed by
the explicit date-range parameters. -/
theorem c9_where_value_inlined (db : DbType) (ok : Bool) (q col op val : String)
    (h : whereParsed q = some (col, op, val)) :
    strContains (translate_question_to_sql db ok q).1
      (col ++ " " ++ op ++ " " ++ ("\x27" ++ val ++ "\x27")) = true ∧
    (translate_question_to_sql db ok q).2.1 =
      (extract_period_filters db q).2.1 ++ dparamsOf q := by
  have hwc : where_clause_of q = "WHERE " ++ col ++ " " ++ op ++ " \x27" ++ val ++ "\x27" := by
    simp [where_clause_of, h]
  have hne : where_clause_of q ≠ "" := by
    rw [hwc]
    intro he
    have h2 := congrArg String.data he
    simp [String.data_append] at h2
  have hpart := wherePart_str q col op val h
  have hwl : (if where_clause_of q ≠ "" then [pyStrip ⟨replaceWHERE (where_clause_of q).data⟩]
      else []) = [col ++ " " ++ op ++ " " ++ ("\x27" ++ val ++ "\x27")] := by
    rw [if_pos hne, hpart]
  have heq1 : (translate_question_to_sql db ok q).1 =
      (build_join_sql db q (tokenize_and_tag ok q).1
        ((((tokenize_and_tag ok q).1).findSome? aggLookup).getD "SUM") (where_clause_of q)).1 :=
    rfl
  have heq2 : (translate_question_to_sql db ok q).2.1 =
      (build_join_sql db q (tokenize_and_tag ok q).1
        ((((tokenize_and_tag ok q).1).findSome? aggLookup).getD "SUM") (where_clause_of q)).2 :=
    rfl
  constructor
  · rw [heq1]
    exact build_where_contains db q _ _ _ hwl
  · rw [heq2, build_params]

/-- Witness for C9 at a concrete question with a where clause. -/
theorem c9_where_value_inlined_witness :
    strContains (translate_question_to_sql DbType.sqlite false "sales where region = north").1
      ("region" ++ " " ++ "=" ++ " " ++ ("\x27" ++ "north" ++ "\x27")) = true ∧
    (translate_question_to_sql DbType.sqlite false "sales where region = north").2.1 =
      (extract_period_filters DbType.sqlite "sales where region = north").2.1 ++
        dparamsOf "sales where region = north" :=
  c9_where_value_inlined DbType.sqlite false "sales where region = north" "region" "=" "north"
    (by decide)

/-- C8: with the tagging resource unavailable, `tokenize_and_tag` degrades to plain
whitespace tokenization of the lowered question with every token tagged "NN", and
returns a value for every input (no failure path).  For "total sales by month in
2023" the fallback resolves the same bucket as the NLTK path and the whole
translation — SQL text, parameters and error slot — coincides, on either dialect. -/
theorem c8_fallback_equivalence (q : String) :
    tokenize_and_tag false q =
      (pySplit (pyLower q), (pySplit (pyLower q)).map fun t => (t, "NN")) ∧
    (∀ db : DbType,
      resolved_bucket db (tokenize_and_tag false "total sales by month in 2023").1
          "total sales by month in 2023" =
        resolved_bucket db (tokenize_and_tag true "total sales by month in 2023").1
          "total sales by month in 2023" ∧
      translate_question_to_sql db false "total sales by month in 2023" =
        translate_question_to_sql db true "total sales by month in 2023") := by
  refine ⟨rfl, ?_⟩
  intro db
  cases db <;> exact ⟨by decide, by decide⟩
